import Mathlib

/-!
Shallow embedding of the document-autofill pipeline of the digmo repository
(src/documents/autofill.py, src/documents copy/autofill.py) and of the
reminder-sending management command (src/reminders/...), together with
theorems settling the frozen claims about them.

Modelling conventions:
* Python strings are Lean `String`s; `str.strip()` is modelled by `pyStrip`
  (drops the ASCII whitespace characters Python strips; exotic Unicode
  whitespace is not modelled), `str.lower()` by `pyLower` (ASCII letters plus
  the German umlauts that occur in the code's synonym table).
* Python floats that the code only ever creates from literals / JSON numbers
  and compares or clamps are modelled as `Rat`.
* `Decimal` values (the `monthly_income` field) are modelled as an integer of
  "unscaled digits" together with a decimal scale, mirroring the
  coefficient/exponent representation of `decimal.Decimal`.
* Python dicts whose keys are strings are modelled as association lists in
  insertion order.
* `None` is `Option.none` (for optional strings) or `PyVal.null` (inside
  `model_to_dict` dictionaries).
-/

namespace Digmo

/-- The whitespace characters stripped by Python's `str.strip()` (ASCII part). -/
def isSpace (c : Char) : Bool :=
  c = ' ' || c = '\t' || c = '\n' || c = '\x0d' || c = '\x0b' || c = '\x0c'

/-- Strip `isSpace` characters from both ends of a character list. -/
def stripChars (l : List Char) : List Char :=
  ((l.dropWhile isSpace).reverse.dropWhile isSpace).reverse

/-- Python `str.strip()`. -/
def pyStrip (s : String) : String :=
  String.mk (stripChars s.data)

/-- Python `str.lower()` restricted to ASCII letters and the German umlauts
appearing in the autofill synonym table. -/
def pyLowerChar (c : Char) : Char :=
  if 'A' ≤ c ∧ c ≤ 'Z' then Char.ofNat (c.toNat + 32)
  else if c = 'Ä' then 'ä'
  else if c = 'Ö' then 'ö'
  else if c = 'Ü' then 'ü'
  else c

/-- Python `str.lower()` (see `pyLowerChar`). -/
def pyLower (s : String) : String :=
  String.mk (s.data.map pyLowerChar)

/-- The character for a decimal digit (`d` is taken modulo its match arm). -/
def digitChar (d : Nat) : Char :=
  match d with
  | 0 => '0' | 1 => '1' | 2 => '2' | 3 => '3' | 4 => '4'
  | 5 => '5' | 6 => '6' | 7 => '7' | 8 => '8' | _ => '9'

/-- Fuel-driven base-10 digit expansion (most significant digit first once
`natDigitsChars` wraps it); structural recursion so that the kernel can
evaluate it. -/
def natDigitsFuel : Nat → Nat → List Char → List Char
  | 0, _, acc => acc
  | fuel + 1, n, acc =>
    if n = 0 then acc
    else natDigitsFuel fuel (n / 10) (digitChar (n % 10) :: acc)

/-- Base-10 digit characters of a natural number (`"0"` for zero). -/
def natDigitsChars (n : Nat) : List Char :=
  if n = 0 then ['0'] else natDigitsFuel (n + 1) n []

/-- `str()` of a `decimal.Decimal` with unscaled integer `u` and scale `s`
(`decRepr 123456 2 = "1234.56"`, `decRepr 50 2 = "0.50"`). -/
def decReprChars (u : Int) (s : Nat) : List Char :=
  let sign : List Char := if u < 0 then ['-'] else []
  let ds := natDigitsChars u.natAbs
  if s = 0 then sign ++ ds
  else
    let padded := if ds.length ≤ s then List.replicate (s + 1 - ds.length) '0' ++ ds else ds
    sign ++ padded.take (padded.length - s) ++ '.' :: padded.drop (padded.length - s)

/-- String form of `decReprChars`. -/
def decRepr (u : Int) (s : Nat) : String :=
  String.mk (decReprChars u s)

/-- A Python value as it occurs in a Django `model_to_dict` dictionary. -/
inductive PyVal where
  | null
  | str (s : String)
  | int (n : Int)
  | bool (b : Bool)
  | dec (unscaled : Int) (scale : Nat)
deriving DecidableEq, Repr

/-- Python `str(v)`. -/
def pyStr : PyVal → String
  | .null => "None"
  | .str s => s
  | .int n => toString n
  | .bool b => if b then "True" else "False"
  | .dec u s => decRepr u s

/-- The `CustomerProfile` model (src/customers/models.py); exactly the fields
that Django's `model_to_dict` returns for it (editable fields; the
non-editable `id`, `created_at`, `updated_at` are absent from the dict). -/
structure CustomerProfile where
  user : Option Int
  broker : Int
  status : String
  first_name : String
  last_name : String
  email : String
  phone : String
  street : String
  postal_code : String
  city : String
  employment_status : String
  monthly_income : Option (Int × Nat)
deriving DecidableEq, Repr

/-- `django.forms.models.model_to_dict` on a `CustomerProfile`. -/
def model_to_dict (c : CustomerProfile) : List (String × PyVal) :=
  [ ("user", match c.user with | some n => .int n | none => .null),
    ("broker", .int c.broker),
    ("status", .str c.status),
    ("first_name", .str c.first_name),
    ("last_name", .str c.last_name),
    ("email", .str c.email),
    ("phone", .str c.phone),
    ("street", .str c.street),
    ("postal_code", .str c.postal_code),
    ("city", .str c.city),
    ("employment_status", .str c.employment_status),
    ("monthly_income", match c.monthly_income with | some p => .dec p.1 p.2 | none => .null) ]

/-- `key in d` for a modelled Python dict. -/
def dictContains (d : List (String × PyVal)) (k : String) : Bool :=
  (d.lookup k).isSome

/-- The hand-written synonym table of `build_fallback_mapping_for_customer`
(src/documents/autofill.py lines 565-579; identical in the copy). -/
def synonym_map : List (String × String) :=
  [ ("vorname", "first_name"),
    ("nachname", "last_name"),
    ("name", "last_name"),
    ("telefon", "phone"),
    ("telefonnummer", "phone"),
    ("plz", "postal_code"),
    ("stadt", "city"),
    ("ort", "city"),
    ("email", "email"),
    ("e-mail", "email"),
    ("e_mail", "email"),
    ("beschäftigungsstatus", "employment_status"),
    ("einkommen", "monthly_income") ]

/-- `MappingEntry` dataclass of src/documents/autofill.py (lines 341-348). -/
structure MappingEntry where
  template_field : String
  customer_key : Option String
  value : Option String
  confidence : Rat
  status : String
  field_id : Option String := none
deriving DecidableEq, Repr

/-- The `customer_key` selection of `build_fallback_mapping_for_customer`
(character-identical at src/documents/autofill.py lines 586-592 and
'src/documents copy/autofill.py' lines 80-86): exact dict key, lowercased
dict key, or synonym-table target present in the dict. -/
def fallbackCustomerKey (customer_dict : List (String × PyVal))
    (key key_lower : String) : Option String :=
  if dictContains customer_dict key then some key
  else if dictContains customer_dict key_lower then some key_lower
  else match synonym_map.lookup key_lower with
    | some tgt => if dictContains customer_dict tgt then some tgt else none
    | none => none

/-- The per-field-name step of `build_fallback_mapping_for_customer`
(the body of its `for raw_name in field_names` loop). -/
def fallbackEntry (customer_dict : List (String × PyVal)) (raw_name : String) :
    MappingEntry :=
  let key := pyStrip raw_name
  let key_lower := pyLower key
  let customer_key : Option String := fallbackCustomerKey customer_dict key key_lower
  match customer_key with
  | some ck =>
    if ck.isEmpty then
      -- Python `if customer_key:` is falsy for the empty string; the else
      -- branch builds the unmatched entry with `customer_key=None`.
      { template_field := key, customer_key := none, value := none,
        confidence := 0, status := "missing", field_id := none }
    else
      match (customer_dict.lookup ck).getD .null with
      | .null =>
        { template_field := key, customer_key := some ck, value := none,
          confidence := 9/10, status := "missing", field_id := none }
      | v =>
        { template_field := key, customer_key := some ck, value := some (pyStr v),
          confidence := 9/10, status := "filled", field_id := none }
  | none =>
    { template_field := key, customer_key := none, value := none,
      confidence := 0, status := "missing", field_id := none }

/-- `build_fallback_mapping_for_customer` (src/documents/autofill.py
lines 556-630). -/
def build_fallback_mapping_for_customer (field_names : List String)
    (customer : CustomerProfile) : List MappingEntry :=
  field_names.map (fallbackEntry (model_to_dict customer))

namespace DocumentsCopy

/-- `MappingEntry` of the older module 'src/documents copy/autofill.py'
(lines 28-34): no `field_id` attribute. -/
structure MappingEntry where
  template_field : String
  customer_key : Option String
  value : Option String
  confidence : Rat
  status : String
deriving DecidableEq, Repr

/-- The per-field-name step of the older `build_fallback_mapping_for_customer`
('src/documents copy/autofill.py' lines 50-121); the synonym table and the
control flow are textually identical to the newer module, the constructed
entries just lack `field_id`. -/
def fallbackEntry (customer_dict : List (String × PyVal)) (raw_name : String) :
    MappingEntry :=
  let key := pyStrip raw_name
  let key_lower := pyLower key
  let customer_key : Option String := fallbackCustomerKey customer_dict key key_lower
  match customer_key with
  | some ck =>
    if ck.isEmpty then
      { template_field := key, customer_key := none, value := none,
        confidence := 0, status := "missing" }
    else
      match (customer_dict.lookup ck).getD .null with
      | .null =>
        { template_field := key, customer_key := some ck, value := none,
          confidence := 9/10, status := "missing" }
      | v =>
        { template_field := key, customer_key := some ck, value := some (pyStr v),
          confidence := 9/10, status := "filled" }
  | none =>
    { template_field := key, customer_key := none, value := none,
      confidence := 0, status := "missing" }

/-- `build_fallback_mapping_for_customer` of 'src/documents copy/autofill.py'
(lines 50-121). -/
def build_fallback_mapping_for_customer (field_names : List String)
    (customer : CustomerProfile) : List MappingEntry :=
  field_names.map (fallbackEntry (model_to_dict customer))

end DocumentsCopy

/-- The fixed nine-key allow-list of `build_customer_payload`
(src/documents/autofill.py lines 683-693). -/
def allowed_payload_keys : List String :=
  [ "first_name", "last_name", "email", "phone", "street",
    "postal_code", "city", "employment_status", "monthly_income" ]

/-- The body of the `for k in allowed_keys` loop of `build_customer_payload`
(lines 696-709) as the (zero- or one-element) batch appended to `out` for a
key: skip keys missing from the dict, skip `None`, skip blank strings, keep
str/int/float/bool values as they are, stringify everything else
(`Decimal`). -/
def payloadContribution (customer_dict : List (String × PyVal)) (k : String) :
    List (String × PyVal) :=
  match customer_dict.lookup k with
  | none => []
  | some v =>
    match v with
    | .null => []
    | .str s => if pyStrip s = "" then [] else [(k, .str s)]
    | .int n => [(k, .int n)]
    | .bool b => [(k, .bool b)]
    | .dec u sc => [(k, .str (decRepr u sc))]

/-- `build_customer_payload` (src/documents/autofill.py lines 678-709). -/
def build_customer_payload (customer : CustomerProfile) : List (String × PyVal) :=
  let customer_dict := model_to_dict customer
  allowed_payload_keys.foldl (fun out k => out ++ payloadContribution customer_dict k) []

/-- The raw `confidence` JSON value in an LLM mapping entry: `num` = a value
the Python `float()` accepts, `bad` = a value on which `float()` raises,
`absent` = key missing (defaulting to `0.0`). -/
inductive RawConf where
  | num (q : Rat)
  | bad
  | absent
deriving DecidableEq, Repr

/-- One element of the `mappings` array of the JSON object returned by the
LLM, as read by `build_llm_mapping_for_customer`: `field_ref` after `str()`,
the optional `customer_key`, and the raw `confidence` value. -/
structure RawLLMMapping where
  field_ref : String
  customer_key : Option String
  confidence : RawConf
deriving DecidableEq, Repr

/-- Outcome of the OpenAI Responses API call made by
`build_llm_mapping_for_customer`: either some exception was raised during the
HTTP call / JSON parsing (all caught by the `except Exception: return None`
at lines 1048-1049), or a parsed `mappings` array was obtained. -/
inductive LLMApi where
  | raises
  | responds (mappings_raw : List RawLLMMapping)
deriving DecidableEq, Repr

/-- The environment-dependent inputs of `build_llm_mapping_for_customer`:
the `AUTOFILL_LLM_ENABLED` feature flag, whether `_get_openai_client`
returns a client (OpenAI importable and an API key configured), whether that
client has the Responses API, and the outcome of the call itself. -/
structure LLMEnv where
  enabled : Bool
  clientConfigured : Bool
  responsesApiAvailable : Bool
  api : LLMApi
deriving DecidableEq, Repr

/-- `max(0.0, min(1.0, conf))` with `conf = float(m.get("confidence", 0.0))`
(`float()` failures fall back to `0.0`, lines 1067-1071). -/
def clampConf : RawConf → Rat
  | .num q => max 0 (min 1 q)
  | .bad => 0
  | .absent => 0

/-- The `for m in mappings_raw or []` conversion loop of
`build_llm_mapping_for_customer` (src/documents/autofill.py lines 1060-1082):
entries with an empty (stripped) `field_ref` are skipped, everything else is
taken over 1:1 in order, duplicates included, with `value=None`,
`status="missing"` and `field_id=field_ref`. -/
def convertRawMappings (mappings_raw : List RawLLMMapping) : List MappingEntry :=
  mappings_raw.filterMap fun m =>
    let field_ref := pyStrip m.field_ref
    if field_ref.isEmpty then none
    else
      some { template_field := field_ref,
             customer_key := m.customer_key.map pyStrip,
             value := none,
             confidence := clampConf m.confidence,
             status := "missing",
             field_id := some field_ref }

/-- `build_llm_mapping_for_customer` (src/documents/autofill.py lines
922-1082).  The PDF bytes are modelled as a byte list (only emptiness is ever
inspected), the customer payload is passed to the API but does not influence
the shape of the result. -/
def build_llm_mapping_for_customer (env : LLMEnv) (pdf_bytes : List Nat)
    (customer_payload : List (String × PyVal)) (customer_keys : List String) :
    Option (List MappingEntry) :=
  if env.enabled = false then none
  else if env.clientConfigured = false || pdf_bytes.isEmpty || customer_keys.isEmpty then none
  else if env.responsesApiAvailable = false then none
  else
    match env.api with
    | .raises => none
    | .responds mappings_raw => some (convertRawMappings mappings_raw)

/-- The allow-listed customer keys handed to the LLM by
`build_mapping_for_customer_with_strategy` (lines 1147-1157). -/
def allowed_customer_keys : List String :=
  [ "first_name", "last_name", "email", "phone", "street",
    "postal_code", "city", "employment_status", "monthly_income" ]

/-- The per-entry resolution step of the LLM branch of
`build_mapping_for_customer_with_strategy` (lines 1170-1190): `field_ref` is
used directly as field name, and the value is filled from
`model_to_dict(customer)` when the customer key is known and non-blank. -/
def resolveLLMValue (customer_dict_full : List (String × PyVal))
    (field_ref : String) (ck : Option String) : Option String :=
  match ck with
  | none => none
  | some c =>
    if c.isEmpty then none
    else
      match customer_dict_full.lookup c with
      | none => none
      | some raw_val =>
        if field_ref.isEmpty then none
        else match raw_val with
          | .null => none
          | v => if pyStrip (pyStr v) = "" then none else some (pyStr v)

/-- See `resolveLLMValue` for the `if field_ref and ck and ck in
customer_dict_full` value computation. -/
def resolveLLMEntry (customer_dict_full : List (String × PyVal)) (m : MappingEntry) :
    MappingEntry :=
  let pre := match m.field_id with
    | some fid => if fid.isEmpty then m.template_field else fid
    | none => m.template_field
  let field_ref := pyStrip pre
  let filledVal := resolveLLMValue customer_dict_full field_ref m.customer_key
  { template_field := field_ref,
    customer_key := m.customer_key,
    value := filledVal,
    confidence := m.confidence,
    status := if filledVal.isSome then "filled" else "missing",
    field_id := some field_ref }

/-- `build_mapping_for_customer_with_strategy` (src/documents/autofill.py
lines 1134-1199). -/
def build_mapping_for_customer_with_strategy (env : LLMEnv)
    (field_names : List String) (customer : CustomerProfile)
    (pdf_bytes : List Nat) : String × List MappingEntry :=
  let llm_raw := build_llm_mapping_for_customer env pdf_bytes
    (build_customer_payload customer) allowed_customer_keys
  match llm_raw with
  | some (x :: xs) =>
    ("llm_gpt52", (x :: xs).map (resolveLLMEntry (model_to_dict customer)))
  | _ =>
    ("fallback_mapping",
      (build_fallback_mapping_for_customer field_names customer).map
        (fun f => { f with field_id := some f.template_field }))

/-- A conflict record appended by `_build_value_dict_from_mappings`
(lines 1237-1253): the contested (stripped) field name and the kept/dropped
entries, each reported as (field_ref, customer_key, value, confidence). -/
structure MappingConflict where
  field_name : String
  kept : MappingEntry
  dropped : MappingEntry
deriving DecidableEq, Repr

/-- In-place update of an insertion-ordered dict: replace the value of an
existing key, else append (Python dict assignment semantics). -/
def dictSet (l : List (String × MappingEntry)) (k : String) (v : MappingEntry) :
    List (String × MappingEntry) :=
  match l with
  | [] => [(k, v)]
  | (k0, v0) :: rest =>
    if k0 = k then (k, v) :: rest else (k0, v0) :: dictSet rest k v

/-- The loop body of `_build_value_dict_from_mappings` acting on the state
`(best, conflicts)` (src/documents/autofill.py lines 1212-1253). -/
def valueDictStep (st : List (String × MappingEntry) × List MappingConflict)
    (m : MappingEntry) : List (String × MappingEntry) × List MappingConflict :=
  let (best, conflicts) := st
  if !(m.status == "filled" && m.value.isSome) then (best, conflicts)
  else
    let key := pyStrip m.template_field
    if key.isEmpty then (best, conflicts)
    else
      match best.lookup key with
      | none => (dictSet best key m, conflicts)
      | some prev =>
        if prev.value = m.value then
          if prev.confidence < m.confidence then (dictSet best key m, conflicts)
          else (best, conflicts)
        else
          if prev.confidence < m.confidence then
            (dictSet best key m,
             conflicts ++ [{ field_name := key, kept := m, dropped := prev }])
          else
            (best,
             conflicts ++ [{ field_name := key, kept := prev, dropped := m }])

/-- `_build_value_dict_from_mappings` (src/documents/autofill.py lines
1202-1256): returns the `field_name -> value` dict (insertion-ordered) and
the conflict list. -/
def build_value_dict_from_mappings (mappings : List MappingEntry) :
    List (String × String) × List MappingConflict :=
  let (best, conflicts) := mappings.foldl valueDictStep ([], [])
  (best.filterMap (fun kv => kv.2.value.map (fun v => (kv.1, v))), conflicts)

/-- Python `"sep".join(parts)`. -/
def pyJoin (sep : String) : List String → String
  | [] => ""
  | [x] => x
  | x :: y :: rest => x ++ sep ++ pyJoin sep (y :: rest)

/-- `str.replace(" ", "_")` (single-character pattern). -/
def replaceSpaceByUnderscore (s : String) : String :=
  String.mk (s.data.map fun c => if c = ' ' then '_' else c)

/-! SHA-1 (as used by `hashlib.sha1` in `_build_field_id`), implemented over
`Nat` with explicit reduction modulo 2^32. -/

/-- Left-rotation of a 32-bit word. -/
def rotl32 (k n : Nat) : Nat :=
  ((n <<< k) ||| (n >>> (32 - k))) % 4294967296

/-- Big-endian 8-byte encoding of a natural number. -/
def be64 (n : Nat) : List Nat :=
  (List.range 8).map fun i => (n >>> (8 * (7 - i))) % 256

/-- SHA-1 message padding of a byte list. -/
def sha1Pad (msg : List Nat) : List Nat :=
  let len := msg.length
  let padZeros := (119 - len % 64) % 64
  msg ++ 128 :: List.replicate padZeros 0 ++ be64 (len * 8)

/-- The sixteen initial 32-bit words of one 64-byte chunk. -/
def chunkWords (chunk : List Nat) : List Nat :=
  (List.range 16).map fun i =>
    (chunk.getD (4 * i) 0) <<< 24 + (chunk.getD (4 * i + 1) 0) <<< 16 +
      (chunk.getD (4 * i + 2) 0) <<< 8 + chunk.getD (4 * i + 3) 0

/-- Extension of the sixteen chunk words to eighty schedule words. -/
def extendWords (w : List Nat) : List Nat :=
  (List.range 64).foldl
    (fun acc i =>
      acc ++ [rotl32 1 ((((acc.getD (i + 13) 0).xor (acc.getD (i + 8) 0)).xor
        (acc.getD (i + 2) 0)).xor (acc.getD i 0))])
    w

/-- One of the eighty SHA-1 rounds. -/
def sha1Round (w : List Nat) (st : Nat × Nat × Nat × Nat × Nat) (i : Nat) :
    Nat × Nat × Nat × Nat × Nat :=
  let (a, b, c, d, e) := st
  let f :=
    if i < 20 then (b.land c).lor ((b.xor 4294967295).land d)
    else if i < 40 then (b.xor c).xor d
    else if i < 60 then ((b.land c).lor (b.land d)).lor (c.land d)
    else (b.xor c).xor d
  let k :=
    if i < 20 then 1518500249
    else if i < 40 then 1859775393
    else if i < 60 then 2400959708
    else 3395469782
  let temp := (rotl32 5 a + f + e + k + w.getD i 0) % 4294967296
  (temp, a, rotl32 30 b, c, d)

/-- Processing of one 64-byte chunk. -/
def sha1Chunk (h : Nat × Nat × Nat × Nat × Nat) (chunk : List Nat) :
    Nat × Nat × Nat × Nat × Nat :=
  let w := extendWords (chunkWords chunk)
  let (a, b, c, d, e) := (List.range 80).foldl (sha1Round w) h
  let (h0, h1, h2, h3, h4) := h
  ((h0 + a) % 4294967296, (h1 + b) % 4294967296, (h2 + c) % 4294967296,
   (h3 + d) % 4294967296, (h4 + e) % 4294967296)

/-- SHA-1 of a byte list, as the five 32-bit state words. -/
def sha1Words (msg : List Nat) : Nat × Nat × Nat × Nat × Nat :=
  let padded := sha1Pad msg
  let nChunks := padded.length / 64
  ((List.range nChunks).map fun i => (padded.drop (64 * i)).take 64).foldl
    sha1Chunk (1732584193, 4023233417, 2562383102, 271733878, 3285377520)

/-- The hexadecimal digit characters. -/
def hexDigitChar (d : Nat) : Char :=
  if d < 10 then digitChar d
  else match d with
    | 10 => 'a' | 11 => 'b' | 12 => 'c' | 13 => 'd' | 14 => 'e' | _ => 'f'

/-- Eight lowercase hex characters of a 32-bit word. -/
def toHex8 (n : Nat) : String :=
  String.mk ((List.range 8).map fun i => hexDigitChar ((n >>> (4 * (7 - i))) % 16))

/-- `hashlib.sha1(s.encode("utf-8")).hexdigest()`. -/
def sha1Hex (s : String) : String :=
  let (h0, h1, h2, h3, h4) := sha1Words (s.toUTF8.toList.map UInt8.toNat)
  toHex8 h0 ++ toHex8 h1 ++ toHex8 h2 ++ toHex8 h3 ++ toHex8 h4

/-- Python `"%.2f" % v` on the modelled rational rectangle coordinates:
round to hundredths (half away from zero; binary-float tie behaviour is not
modelled) and render with exactly two decimals. -/
def fmt2 (v : Rat) : String :=
  let scaled : Int := (v * 100 + (if v < 0 then (-1 : Rat)/2 else 1/2)).floor
  decRepr scaled 2

/-- The "w…" part appended by `_build_field_id` when `widget_ref` is truthy
(line 420-421). -/
def widgetPart (widget_ref : Option String) : List String :=
  match widget_ref with
  | some w => if w.isEmpty then [] else ["w" ++ replaceSpaceByUnderscore w]
  | none => []

/-- The "f…" part appended by `_build_field_id` when `parent_ref` is truthy
and differs from `widget_ref` (lines 422-423). -/
def parentPart (widget_ref parent_ref : Option String) : List String :=
  match parent_ref with
  | some p =>
    if p.isEmpty || widget_ref == some p then []
    else ["f" ++ replaceSpaceByUnderscore p]
  | none => []

/-- The "r…" part appended by `_build_field_id` when `rect` is truthy
(lines 424-426). -/
def rectPart (rect : Option (List Rat)) : List String :=
  match rect with
  | some r => if r.isEmpty then [] else ["r" ++ pyJoin "," (r.map fmt2)]
  | none => []

/-- `_build_field_id` (src/documents/autofill.py lines 404-435): the
sequential appends to `parts` are the concatenation of the page part with
the w/f/r parts in that order. -/
def build_field_id (page_index : Nat) (widget_ref : Option String)
    (parent_ref : Option String) (rect : Option (List Rat))
    (field_name_fallback : Option String) : String :=
  let parts : List String := ("p" ++ toString page_index) ::
    (widgetPart widget_ref ++ parentPart widget_ref parent_ref ++ rectPart rect)
  if 1 < parts.length then pyJoin "|" parts
  else
    let seed := (field_name_fallback.getD "") ++ "|" ++ toString page_index
    "p" ++ toString page_index ++ "|h" ++ (sha1Hex seed).take 12

/-- `_normalize_match_key` (src/documents/autofill.py lines 804-812):
strip, lower, keep only the characters a-z and 0-9. -/
def normalize_match_key (s : String) : String :=
  String.mk ((pyLower (pyStrip s)).data.filter fun c =>
    ('a' ≤ c && c ≤ 'z') || ('0' ≤ c && c ≤ '9'))

/-- One value of the `reader.get_fields()` dictionary, keeping the members
`_build_label_index_from_fields` reads: the `/TU` tooltip and the `/T`
partial name (absent or empty strings fall through Python's `or`). -/
structure PdfFormField where
  tu : Option String
  t : Option String
deriving DecidableEq, Repr

/-- Python truthiness-based `a or b` on optional strings. -/
def orStr (a : Option String) (b : Option String) : Option String :=
  match a with
  | some s => if s.isEmpty then b else some s
  | none => b

/-- The label of a field as computed at lines 823-826:
`field.get("/TU") or field.get("/T") or field_name`. -/
def fieldLabel (field_name : String) (field : PdfFormField) : String :=
  match orStr field.tu (orStr field.t (some field_name)) with
  | some s => s
  | none => field_name

/-- Append `v` to the list stored at `k` (Python `dict.setdefault(k, []).append(v)`). -/
def indexAdd (idx : List (String × List String)) (k : String) (v : String) :
    List (String × List String) :=
  match idx with
  | [] => [(k, [v])]
  | (k0, vs) :: rest =>
    if k0 = k then (k0, vs ++ [v]) :: rest else (k0, vs) :: indexAdd rest k v

/-- The last dot-separated segment of a string (`str.split(".")[-1]`): the
suffix after the last '.' (the whole string when it has no dot). -/
def lastDotSegment (s : String) : String :=
  String.mk ((s.data.reverse.takeWhile fun c => c != '.').reverse)

/-- `_build_label_index_from_fields` (src/documents/autofill.py lines
815-840): index from the normalized label (`/TU` or `/T` or name) and from
the normalized last name segment to the list of field names.  When the label
normalizes to the empty string, the Python `if not norm: continue` (lines
828-830) skips the REST of the loop body, so such a field is not indexed
under its last name segment either. -/
def build_label_index_from_fields (fields : List (String × PdfFormField)) :
    List (String × List String) :=
  fields.foldl
    (fun index kv =>
      let (field_name, field) := kv
      if field_name.isEmpty then index
      else
        let norm := normalize_match_key (fieldLabel field_name field)
        if norm.isEmpty then index
        else
          let index := indexAdd index norm field_name
          let last_norm := normalize_match_key (lastDotSegment field_name)
          if last_norm.isEmpty then index else indexAdd index last_norm field_name)
    []

/-- The greedy match of `re.match(r"^(.*)_([0-9]+)$", fr)`: succeeds exactly
when the string has an underscore followed only by at least one digit at the
end; group 1 is everything before that last underscore, group 2 the digits. -/
def splitSuffixNum (s : String) : Option (String × Nat) :=
  let rev := s.data.reverse
  let ds := rev.takeWhile fun c => '0' ≤ c && c ≤ '9'
  if ds.isEmpty then none
  else
    match rev.drop ds.length with
    | '_' :: rest =>
      some (String.mk rest.reverse,
        ds.reverse.foldl (fun acc c => acc * 10 + (c.toNat - 48)) 0)
    | _ => none

/-- Python string comparison (lexicographic on code points), as a `Bool`
less-or-equal used to model `sorted`. -/
def pyCharsLe : List Char → List Char → Bool
  | [], _ => true
  | _ :: _, [] => false
  | a :: as, b :: bs => if a < b then true else if b < a then false else pyCharsLe as bs

/-- See `pyCharsLe`. -/
def pyStrLe (a b : String) : Bool :=
  pyCharsLe a.data b.data

/-- Python `sorted(set(xs))` for strings: duplicates removed, ascending code
point order (`List.dedup` keeps the first occurrence; the result of sorting
is order-independent). -/
def sortedSet (xs : List String) : List String :=
  List.insertionSort (fun a b => pyStrLe a b) (xs.dedup)

/-- `_resolve_field_ref_to_field_name` (src/documents/autofill.py lines
843-881). -/
def resolve_field_ref_to_field_name (field_ref : String)
    (field_names : List String) (fields : List (String × PdfFormField)) :
    Option String :=
  let fr := pyStrip field_ref
  if fr.isEmpty then none
  else if fr ∈ field_names then some fr
  else
    let (base, nth) := match splitSuffixNum fr with
      | some (b, n) => (pyStrip b, some n)
      | none => (fr, none)
    let index := build_label_index_from_fields fields
    let candidates := (index.lookup (normalize_match_key base)).getD []
    if candidates.isEmpty then none
    else
      let candidates := sortedSet candidates
      match nth with
      | some n =>
        if 1 ≤ n ∧ n ≤ candidates.length then candidates.get? (n - 1)
        else candidates.get? 0
      | none => candidates.get? 0

/-- The candidate list consulted by `_resolve_field_ref_to_field_name` (the
`index.get(_normalize_match_key(base)) or []` of lines 872-873, with `base`
from the suffix parse of lines 862-870). -/
def resolveCandidates (field_ref : String) (fields : List (String × PdfFormField)) :
    List String :=
  let fr := pyStrip field_ref
  let base := match splitSuffixNum fr with
    | some bn => pyStrip bn.1
    | none => fr
  ((build_label_index_from_fields fields).lookup (normalize_match_key base)).getD []

/-- The parsed `_N` suffix of the stripped field_ref (`nth` of lines
863-870). -/
def resolveNth (field_ref : String) : Option Nat :=
  (splitSuffixNum (pyStrip field_ref)).map Prod.snd

/-! Embedding of `_render_pdf_acroform_template` (src/documents/autofill.py
lines 1322-1442).  pypdf is assumed installed (the `PdfReader is None` guard
is not modelled); the bytes produced by `writer.write` after filling are an
opaque marker `RenderedPdf.filled`, the unmodified input bytes are
`RenderedPdf.original`.  The behaviour of `_safe_fill_pdf_form_fields` on the
cloned writer (which depends on pypdf object state) is abstracted as a
parameter `safeFill : field name → value → Option error`. -/

/-- The output bytes of the renderer. -/
inductive RenderedPdf where
  | original (bytes : List Nat)
  | filled
deriving DecidableEq, Repr

/-- One element of the `fields` array of the mapping report
(lines 1428-1437). -/
structure MappingReportField where
  field_ref : Option String
  field_name : String
  customer_key : Option String
  confidence : Rat
  value : Option String
  status : String
deriving DecidableEq, Repr

/-- The mapping report returned together with the rendered PDF. -/
structure MappingReport where
  strategy : String
  note : Option String
  fields : List MappingReportField
  fill_error : Option String
deriving DecidableEq, Repr

/-- Exceptions `_render_pdf_acroform_template` can raise: the explicit
`ValueError` for a template without a file, and the `UnboundLocalError` that
Python raises at `return out_buf.getvalue()` when `out_buf` was never
assigned. -/
inductive RenderErr where
  | noFile
  | unboundLocalOutBuf
deriving DecidableEq, Repr

instance {ε α : Type} [DecidableEq ε] [DecidableEq α] : DecidableEq (Except ε α) :=
  fun x y =>
    match x, y with
    | .ok a, .ok b =>
      if h : a = b then isTrue (by rw [h]) else isFalse (by simp [h])
    | .error a, .error b =>
      if h : a = b then isTrue (by rw [h]) else isFalse (by simp [h])
    | .ok _, .error _ => isFalse (by simp)
    | .error _, .ok _ => isFalse (by simp)

/-- Result of a render run, instrumented with the sequence of
`(field name, value)` single-entry dicts passed to
`_safe_fill_pdf_form_fields` (the loop at lines 1411-1419). -/
structure RenderTrace where
  writes : List (String × String)
  result : Except RenderErr (RenderedPdf × MappingReport)
deriving DecidableEq, Repr

/-- The report row built from a `MappingEntry` (lines 1429-1436). -/
def reportField (m : MappingEntry) : MappingReportField :=
  { field_ref := m.field_id, field_name := m.template_field,
    customer_key := m.customer_key, confidence := m.confidence,
    value := m.value, status := m.status }

/-- The `fill_targets` filter (line 1395). -/
def fillTargets (mappings : List MappingEntry) : List MappingEntry :=
  mappings.filter fun m => m.status == "filled" && m.value.isSome

/-- `_render_pdf_acroform_template` (src/documents/autofill.py lines
1322-1442).  `hasFile` models `template.file` being set, `fields` the keys of
`reader.get_fields()`, `writerPages` whether the cloned writer has pages. -/
def render_pdf_acroform_template (env : LLMEnv) (hasFile : Bool)
    (pdf_bytes : List Nat) (fields : List String) (customer : CustomerProfile)
    (writerPages : Bool) (safeFill : String → String → Option String) :
    RenderTrace :=
  if hasFile = false then { writes := [], result := .error .noFile }
  else
    let field_names := fields.filter fun n => !n.isEmpty
    if field_names.isEmpty then
      { writes := [],
        result := .ok (.original pdf_bytes,
          { strategy := "no_acroform",
            note := some "PDF enthält keine Formularfelder; Datei wurde unverändert übernommen.",
            fields := [], fill_error := none }) }
    else
      let sm := build_mapping_for_customer_with_strategy env field_names customer pdf_bytes
      let strategy := sm.1
      let mappings := sm.2
      let fill_targets := fillTargets mappings
      if writerPages && !fill_targets.isEmpty then
        let writes := fill_targets.map fun m => (m.template_field, m.value.getD "")
        let errors := (writes.filterMap fun fv => safeFill fv.1 fv.2).take 5
        let any_success := writes.any fun fv => (safeFill fv.1 fv.2).isNone
        let fill_error :=
          if any_success then none
          else some (errors.headD "Keine Felder wurden aktualisiert.")
        { writes := writes,
          result := .ok (.filled,
            { strategy := strategy, note := none,
              fields := mappings.map reportField, fill_error := fill_error }) }
      else
        -- `out_buf` is only assigned inside `if writer.pages and fill_targets:`;
        -- on this path `return out_buf.getvalue()` raises UnboundLocalError.
        { writes := [], result := .error .unboundLocalOutBuf }

/-! Embedding of the `send_due_reminders` management command
(src/reminders/management/commands/send_due_reminders.py) and the
`ReminderLog.mark_sent` / `mark_failed` methods (src/reminders/models.py
lines 99-110).  Timestamps are integers; the per-log provider interaction
(Brevo template id validation and `BrevoEmailProvider.send_email`) is
abstracted as a function from the log's id to a `SendResult`. -/

/-- `ReminderLog.Status`. -/
inductive RStatus where
  | pending
  | sent
  | failed
deriving DecidableEq, Repr

/-- A `ReminderLog` row together with the `enabled` flag of its rule. -/
structure RLog where
  id : Nat
  status : RStatus
  due_at : Int
  sent_at : Option Int
  provider_response_id : String
  error_text : String
  rule_enabled : Bool
deriving DecidableEq, Repr

/-- Outcome of the try-block around `provider.send_email` for one log:
a provider response id, or a raised `BrevoEmailProviderError` message
(which includes the invalid-template-id case). -/
inductive SendResult where
  | ok (rid : String)
  | err (msg : String)
deriving DecidableEq, Repr

/-- `ReminderLog.mark_failed` (models.py lines 106-110): status `failed`,
error text truncated to 1000 characters (Python slicing `[:1000]` counts
characters). -/
def markFailed (log : RLog) (error_text : String) : RLog :=
  { log with status := .failed, error_text := String.mk (error_text.data.take 1000) }

/-- `ReminderLog.mark_sent` (models.py lines 99-104): status `sent`,
`sent_at` set; the provider response id is stored only when truthy.
The send timestamp is modelled as the run's reference time. -/
def markSent (now : Int) (log : RLog) (provider_response_id : String) : RLog :=
  { log with
    status := .sent
    sent_at := some now
    provider_response_id :=
      if provider_response_id.isEmpty then log.provider_response_id
      else provider_response_id }

/-- What happened to one processed log in a run. -/
structure ReminderEvent where
  log_id : Nat
  log_due : Int
  attempted : Bool
deriving DecidableEq, Repr

/-- The body of the `for log in pending_logs` loop (command lines 44-121):
a disabled rule marks the log failed without a send attempt; otherwise the
send outcome decides between `mark_sent` and `mark_failed`. -/
def processLog (outcome : Nat → SendResult) (now : Int) (log : RLog) :
    RLog × ReminderEvent :=
  if log.rule_enabled = false then
    (markFailed log "Regel wurde deaktiviert.",
     { log_id := log.id, log_due := log.due_at, attempted := false })
  else
    match outcome log.id with
    | .ok rid =>
      (markSent now log rid,
       { log_id := log.id, log_due := log.due_at, attempted := true })
    | .err msg =>
      (markFailed log msg,
       { log_id := log.id, log_due := log.due_at, attempted := true })

/-- The queryset filter `status=PENDING, due_at__lte=now`. -/
def isPendingDue (now : Int) (log : RLog) : Bool :=
  log.status == RStatus.pending && log.due_at ≤ now

instance : IsTotal RLog (fun a b => a.due_at ≤ b.due_at) :=
  ⟨fun a b => Int.le_total a.due_at b.due_at⟩

instance : IsTrans RLog (fun a b => a.due_at ≤ b.due_at) :=
  ⟨fun _ _ _ h1 h2 => le_trans h1 h2⟩

/-- A run of the `send_due_reminders` command over the reminder-log table:
if the provider is unconfigured the run exits without touching anything;
otherwise the pending-and-due logs are processed in ascending `due_at` order
and each processed log is saved back by primary key.  Returns the final
table and the per-log events in processing order. -/
def sendDueReminders (configured : Bool) (now : Int)
    (outcome : Nat → SendResult) (logs : List RLog) :
    List RLog × List ReminderEvent :=
  if configured = false then (logs, [])
  else
    let pending_logs :=
      List.insertionSort (fun a b => a.due_at ≤ b.due_at)
        (logs.filter (isPendingDue now))
    let processed := pending_logs.map (processLog outcome now)
    (logs.map fun l =>
        match processed.find? (fun p => p.1.id == l.id) with
        | some p => p.1
        | none => l,
     processed.map Prod.snd)

/-! Auxiliary definitions used in the statements and proofs below. -/

/-- The invariant of claim C8: confidence in [0, 1], and status `"filled"`
exactly when a value is present. -/
def entryInvariant (m : MappingEntry) : Prop :=
  0 ≤ m.confidence ∧ m.confidence ≤ 1 ∧ (m.status = "filled" ↔ m.value.isSome)

/-- Lift of an old-module mapping entry to the new dataclass (the extra
`field_id` attribute defaulting to `None`). -/
def liftLegacyEntry (e : DocumentsCopy.MappingEntry) : MappingEntry :=
  { template_field := e.template_field, customer_key := e.customer_key,
    value := e.value, confidence := e.confidence, status := e.status,
    field_id := none }

/-- A concrete customer used to instantiate hypotheses of proved theorems. -/
def sampleCustomer : CustomerProfile :=
  { user := none, broker := 7, status := "new", first_name := "Max",
    last_name := "Muster", email := "max@example.com", phone := "",
    street := "Weg 1", postal_code := "12345", city := "Berlin",
    employment_status := "", monthly_income := none }

/-- A concrete LLM environment in which the feature flag is off. -/
def disabledLLMEnv : LLMEnv :=
  { enabled := false, clientConfigured := true, responsesApiAvailable := true,
    api := .raises }

/-! Theorems settling the claims. -/

theorem fallbackEntry_eq_lift (d : List (String × PyVal)) (r : String) :
    fallbackEntry d r = liftLegacyEntry (DocumentsCopy.fallbackEntry d r) := by
  unfold fallbackEntry DocumentsCopy.fallbackEntry
  dsimp only
  cases hck : fallbackCustomerKey d (pyStrip r) (pyLower (pyStrip r)) with
  | none => simp [liftLegacyEntry]
  | some ck =>
    by_cases he : ck.isEmpty = true
    · simp [he, liftLegacyEntry]
    · simp only [he, Bool.false_eq_true, if_false]
      cases hv : (d.lookup ck).getD PyVal.null <;> simp [liftLegacyEntry]

theorem clampConf_bounds (c : RawConf) : 0 ≤ clampConf c ∧ clampConf c ≤ 1 := by
  cases c with
  | num q =>
    constructor
    · exact le_max_left 0 (min 1 q)
    · exact max_le (by norm_num) (min_le_left 1 q)
  | bad => norm_num [clampConf]
  | absent => norm_num [clampConf]

theorem entryInvariant_fallbackEntry (d : List (String × PyVal)) (r : String) :
    entryInvariant (fallbackEntry d r) := by
  unfold fallbackEntry
  dsimp only
  cases hck : fallbackCustomerKey d (pyStrip r) (pyLower (pyStrip r)) with
  | none => refine ⟨by norm_num, by norm_num, by simp⟩
  | some ck =>
    by_cases he : ck.isEmpty = true
    · simp only [he, if_true]
      exact ⟨by norm_num, by norm_num, by simp⟩
    · simp only [he, Bool.false_eq_true, if_false]
      cases hv : (d.lookup ck).getD PyVal.null <;>
        exact ⟨by norm_num, by norm_num, by simp⟩

theorem entryInvariant_convert (raws : List RawLLMMapping) :
    ∀ m ∈ convertRawMappings raws, entryInvariant m := by
  intro m hm
  unfold convertRawMappings at hm
  rw [List.mem_filterMap] at hm
  obtain ⟨raw, _, heq⟩ := hm
  dsimp only at heq
  by_cases he : (pyStrip raw.field_ref).isEmpty = true
  · simp [he] at heq
  · simp only [he, Bool.false_eq_true, if_false, Option.some.injEq] at heq
    subst heq
    exact ⟨(clampConf_bounds raw.confidence).1, (clampConf_bounds raw.confidence).2, by simp⟩

theorem entryInvariant_resolve (d : List (String × PyVal)) (m : MappingEntry)
    (h0 : 0 ≤ m.confidence) (h1 : m.confidence ≤ 1) :
    entryInvariant (resolveLLMEntry d m) := by
  unfold resolveLLMEntry
  dsimp only
  cases hv : resolveLLMValue d
      (pyStrip (match m.field_id with
        | some fid => if fid.isEmpty then m.template_field else fid
        | none => m.template_field)) m.customer_key <;>
    exact ⟨h0, h1, by simp⟩

theorem entryInvariant_field_id (f : MappingEntry) (x : Option String)
    (h : entryInvariant f) : entryInvariant { f with field_id := x } := h

/-- C10: for every field-name list and customer, the heuristic
`build_fallback_mapping_for_customer` of src/documents/autofill.py and the
older version in 'src/documents copy/autofill.py' return lists of the same
length whose corresponding entries agree on `template_field`, `customer_key`,
`value`, `confidence` and `status`; the newer version differs only by the
additional `field_id` attribute, which it leaves `None`. -/
theorem fallback_mapping_agrees_with_legacy (field_names : List String)
    (customer : CustomerProfile) :
    build_fallback_mapping_for_customer field_names customer =
      (DocumentsCopy.build_fallback_mapping_for_customer field_names customer).map
        liftLegacyEntry := by
  unfold build_fallback_mapping_for_customer DocumentsCopy.build_fallback_mapping_for_customer
  rw [List.map_map]
  have h : fallbackEntry (model_to_dict customer) =
      liftLegacyEntry ∘ DocumentsCopy.fallbackEntry (model_to_dict customer) :=
    funext fun r => fallbackEntry_eq_lift _ r
  rw [h]

theorem llm_mapping_members_invariant (env : LLMEnv) (pdf_bytes : List Nat)
    (customer_payload : List (String × PyVal)) (customer_keys : List String) :
    ∀ l, build_llm_mapping_for_customer env pdf_bytes customer_payload customer_keys = some l →
      ∀ m ∈ l, entryInvariant m := by
  intro l hl m hm
  unfold build_llm_mapping_for_customer at hl
  split at hl
  · exact absurd hl (by simp)
  · split at hl
    · exact absurd hl (by simp)
    · split at hl
      · exact absurd hl (by simp)
      · split at hl
        · exact absurd hl (by simp)
        · injection hl with h
          subst h
          exact entryInvariant_convert _ m hm

/-- C8: every `MappingEntry` returned by `build_fallback_mapping_for_customer`,
`build_llm_mapping_for_customer`, or `build_mapping_for_customer_with_strategy`
satisfies the invariant that its confidence lies in [0, 1] and its status is
"filled" if and only if its value is not `None`. -/
theorem mapping_builders_entry_invariant (env : LLMEnv) (pdf_bytes : List Nat)
    (customer_payload : List (String × PyVal)) (customer_keys : List String)
    (field_names : List String) (customer : CustomerProfile) :
    (∀ l, build_llm_mapping_for_customer env pdf_bytes customer_payload customer_keys = some l →
       ∀ m ∈ l, entryInvariant m)
    ∧ (∀ m ∈ build_fallback_mapping_for_customer field_names customer, entryInvariant m)
    ∧ (∀ m ∈ (build_mapping_for_customer_with_strategy env field_names customer pdf_bytes).2,
        entryInvariant m) := by
  refine ⟨llm_mapping_members_invariant env pdf_bytes customer_payload customer_keys, ?_, ?_⟩
  · intro m hm
    unfold build_fallback_mapping_for_customer at hm
    rw [List.mem_map] at hm
    obtain ⟨r, _, heq⟩ := hm
    exact heq ▸ entryInvariant_fallbackEntry (model_to_dict customer) r
  · intro m hm
    unfold build_mapping_for_customer_with_strategy at hm
    dsimp only at hm
    cases hres : build_llm_mapping_for_customer env pdf_bytes
        (build_customer_payload customer) allowed_customer_keys with
    | none =>
      rw [hres] at hm
      dsimp only at hm
      rw [List.mem_map] at hm
      obtain ⟨f, hf, heq⟩ := hm
      subst heq
      refine entryInvariant_field_id f _ ?_
      unfold build_fallback_mapping_for_customer at hf
      rw [List.mem_map] at hf
      obtain ⟨r, _, heq⟩ := hf
      exact heq ▸ entryInvariant_fallbackEntry (model_to_dict customer) r
    | some ll =>
      cases ll with
      | nil =>
        rw [hres] at hm
        dsimp only at hm
        rw [List.mem_map] at hm
        obtain ⟨f, hf, heq⟩ := hm
        subst heq
        refine entryInvariant_field_id f _ ?_
        unfold build_fallback_mapping_for_customer at hf
        rw [List.mem_map] at hf
        obtain ⟨r, _, heq⟩ := hf
        exact heq ▸ entryInvariant_fallbackEntry (model_to_dict customer) r
      | cons x xs =>
        rw [hres] at hm
        dsimp only at hm
        rw [List.mem_map] at hm
        obtain ⟨m0, hm0, heq⟩ := hm
        subst heq
        have hinv : entryInvariant m0 :=
          llm_mapping_members_invariant env pdf_bytes (build_customer_payload customer)
            allowed_customer_keys (x :: xs) hres m0 hm0
        exact entryInvariant_resolve (model_to_dict customer) m0 hinv.1 hinv.2.1

theorem isSpace_digitChar (d : Nat) : isSpace (digitChar d) = false := by
  unfold digitChar
  split <;> decide

theorem natDigitsFuel_append (fuel : Nat) :
    ∀ (n : Nat) (acc : List Char), ∃ pre, natDigitsFuel fuel n acc = pre ++ acc := by
  induction fuel with
  | zero => exact fun n acc => ⟨[], rfl⟩
  | succ f ih =>
    intro n acc
    unfold natDigitsFuel
    by_cases h : n = 0
    · exact ⟨[], by simp [h]⟩
    · simp only [h, if_false]
      obtain ⟨pre, hp⟩ := ih (n / 10) (digitChar (n % 10) :: acc)
      exact ⟨pre ++ [digitChar (n % 10)], by simp [hp]⟩

theorem natDigitsChars_has_digit (n : Nat) :
    ∃ c ∈ natDigitsChars n, ∃ d, c = digitChar d := by
  unfold natDigitsChars
  by_cases h : n = 0
  · exact ⟨'0', by simp [h], 0, rfl⟩
  · simp only [h, if_false]
    have h1 : natDigitsFuel (n + 1) n [] =
        natDigitsFuel n (n / 10) [digitChar (n % 10)] := by
      conv_lhs => rw [natDigitsFuel]
      simp [h]
    obtain ⟨pre, hp⟩ := natDigitsFuel_append n (n / 10) [digitChar (n % 10)]
    refine ⟨digitChar (n % 10), ?_, n % 10, rfl⟩
    rw [h1, hp]
    simp

theorem stripChars_ne_nil (l : List Char) (c : Char) (hc : c ∈ l)
    (hs : isSpace c = false) : stripChars l ≠ [] := by
  intro h
  unfold stripChars at h
  rw [List.reverse_eq_nil_iff, List.dropWhile_eq_nil_iff] at h
  have hcd : c ∈ l.dropWhile isSpace := by
    have hsplit := List.takeWhile_append_dropWhile isSpace l
    rcases (List.mem_append.mp (by rw [hsplit]; exact hc)) with h1 | h1
    · exact absurd (List.mem_takeWhile_imp h1) (by simp [hs])
    · exact h1
  have := h c (by simp [hcd])
  simp [hs] at this

theorem pyStrip_decRepr_ne_empty (u : Int) (s : Nat) : ¬ pyStrip (decRepr u s) = "" := by
  intro h
  have h2 : stripChars (decReprChars u s) = [] := by
    have := congrArg String.data h
    simpa [pyStrip, decRepr] using this
  obtain ⟨c, hc, hs⟩ : ∃ c ∈ decReprChars u s, isSpace c = false := by
    unfold decReprChars
    by_cases hz : s = 0
    · obtain ⟨c, hc, d, hd⟩ := natDigitsChars_has_digit u.natAbs
      refine ⟨c, by simp [hz, hc], ?_⟩
      rw [hd]; exact isSpace_digitChar d
    · refine ⟨'.', ?_, by decide⟩
      simp [hz]
  exact stripChars_ne_nil _ c hc hs h2

theorem mem_payloadContribution (d : List (String × PyVal)) (k : String)
    (kv : String × PyVal) (h : kv ∈ payloadContribution d k) :
    kv.1 = k ∧ kv.2 ≠ PyVal.null ∧ ∀ s, kv.2 = PyVal.str s → ¬ pyStrip s = "" := by
  unfold payloadContribution at h
  cases hl : d.lookup k with
  | none => rw [hl] at h; simp at h
  | some v =>
    rw [hl] at h
    cases v with
    | null => simp at h
    | str s =>
      dsimp only at h
      by_cases hb : pyStrip s = ""
      · simp [hb] at h
      · simp only [hb, if_false, List.mem_singleton] at h
        subst h
        exact ⟨rfl, by simp, fun t ht => by
          simp only [PyVal.str.injEq] at ht
          exact ht ▸ hb⟩
    | int n =>
      simp only [List.mem_singleton] at h
      subst h
      exact ⟨rfl, by simp, fun t ht => by simp at ht⟩
    | bool b =>
      simp only [List.mem_singleton] at h
      subst h
      exact ⟨rfl, by simp, fun t ht => by simp at ht⟩
    | dec uu sc =>
      simp only [List.mem_singleton] at h
      subst h
      refine ⟨rfl, by simp, fun t ht => ?_⟩
      simp only [PyVal.str.injEq] at ht
      exact ht ▸ pyStrip_decRepr_ne_empty uu sc

theorem payload_foldl_flatten (d : List (String × PyVal)) (keys : List String)
    (init : List (String × PyVal)) :
    keys.foldl (fun out k => out ++ payloadContribution d k) init =
      init ++ (keys.map (payloadContribution d)).flatten := by
  induction keys generalizing init with
  | nil => simp
  | cons k ks ih => simp [List.foldl_cons, ih]

/-- C9: for every customer, the payload built by `build_customer_payload`
contains only keys from the fixed nine-key allow-list, never a `None` or
empty/whitespace-only string value; and two customers that agree on those
nine attributes produce identical payloads, so the data sent to the LLM does
not depend on any other customer attribute. -/
theorem customer_payload_allowlisted_and_nine_key_only (c : CustomerProfile) :
    (∀ kv ∈ build_customer_payload c,
       kv.1 ∈ allowed_payload_keys ∧ kv.2 ≠ PyVal.null ∧
         ∀ s, kv.2 = PyVal.str s → ¬ pyStrip s = "")
    ∧ ∀ c' : CustomerProfile,
        c.first_name = c'.first_name → c.last_name = c'.last_name →
        c.email = c'.email → c.phone = c'.phone → c.street = c'.street →
        c.postal_code = c'.postal_code → c.city = c'.city →
        c.employment_status = c'.employment_status →
        c.monthly_income = c'.monthly_income →
        build_customer_payload c = build_customer_payload c' := by
  constructor
  · intro kv hkv
    unfold build_customer_payload at hkv
    rw [payload_foldl_flatten] at hkv
    simp only [List.nil_append, List.mem_flatten, List.mem_map] at hkv
    obtain ⟨l, ⟨k, hk, hl⟩, hmem⟩ := hkv
    obtain ⟨h1, h2, h3⟩ := mem_payloadContribution _ k kv (hl ▸ hmem)
    exact ⟨h1 ▸ hk, h2, h3⟩
  · intro c' h1 h2 h3 h4 h5 h6 h7 h8 h9
    unfold build_customer_payload
    rw [payload_foldl_flatten, payload_foldl_flatten]
    have e1 : payloadContribution (model_to_dict c) "first_name" =
        (if pyStrip c.first_name = "" then [] else [("first_name", PyVal.str c.first_name)]) := rfl
    have e1' : payloadContribution (model_to_dict c') "first_name" =
        (if pyStrip c'.first_name = "" then [] else [("first_name", PyVal.str c'.first_name)]) := rfl
    have e2 : payloadContribution (model_to_dict c) "last_name" =
        (if pyStrip c.last_name = "" then [] else [("last_name", PyVal.str c.last_name)]) := rfl
    have e2' : payloadContribution (model_to_dict c') "last_name" =
        (if pyStrip c'.last_name = "" then [] else [("last_name", PyVal.str c'.last_name)]) := rfl
    have e3 : payloadContribution (model_to_dict c) "email" =
        (if pyStrip c.email = "" then [] else [("email", PyVal.str c.email)]) := rfl
    have e3' : payloadContribution (model_to_dict c') "email" =
        (if pyStrip c'.email = "" then [] else [("email", PyVal.str c'.email)]) := rfl
    have e4 : payloadContribution (model_to_dict c) "phone" =
        (if pyStrip c.phone = "" then [] else [("phone", PyVal.str c.phone)]) := rfl
    have e4' : payloadContribution (model_to_dict c') "phone" =
        (if pyStrip c'.phone = "" then [] else [("phone", PyVal.str c'.phone)]) := rfl
    have e5 : payloadContribution (model_to_dict c) "street" =
        (if pyStrip c.street = "" then [] else [("street", PyVal.str c.street)]) := rfl
    have e5' : payloadContribution (model_to_dict c') "street" =
        (if pyStrip c'.street = "" then [] else [("street", PyVal.str c'.street)]) := rfl
    have e6 : payloadContribution (model_to_dict c) "postal_code" =
        (if pyStrip c.postal_code = "" then [] else [("postal_code", PyVal.str c.postal_code)]) := rfl
    have e6' : payloadContribution (model_to_dict c') "postal_code" =
        (if pyStrip c'.postal_code = "" then [] else [("postal_code", PyVal.str c'.postal_code)]) := rfl
    have e7 : payloadContribution (model_to_dict c) "city" =
        (if pyStrip c.city = "" then [] else [("city", PyVal.str c.city)]) := rfl
    have e7' : payloadContribution (model_to_dict c') "city" =
        (if pyStrip c'.city = "" then [] else [("city", PyVal.str c'.city)]) := rfl
    have e8 : payloadContribution (model_to_dict c) "employment_status" =
        (if pyStrip c.employment_status = "" then []
         else [("employment_status", PyVal.str c.employment_status)]) := rfl
    have e8' : payloadContribution (model_to_dict c') "employment_status" =
        (if pyStrip c'.employment_status = "" then []
         else [("employment_status", PyVal.str c'.employment_status)]) := rfl
    have e9 : payloadContribution (model_to_dict c) "monthly_income" =
        (match c.monthly_income with
          | some p => [("monthly_income", PyVal.str (decRepr p.1 p.2))]
          | none => []) := by
      cases hmi : c.monthly_income <;>
        simp [payloadContribution, model_to_dict, List.lookup, hmi]
    have e9' : payloadContribution (model_to_dict c') "monthly_income" =
        (match c'.monthly_income with
          | some p => [("monthly_income", PyVal.str (decRepr p.1 p.2))]
          | none => []) := by
      cases hmi : c'.monthly_income <;>
        simp [payloadContribution, model_to_dict, List.lookup, hmi]
    simp only [allowed_payload_keys, List.map_cons, List.map_nil, List.flatten_cons,
      List.flatten_nil, List.nil_append,
      e1, e1', e2, e2', e3, e3', e4, e4', e5, e5', e6, e6', e7, e7', e8, e8', e9, e9',
      h1, h2, h3, h4, h5, h6, h7, h8, h9]

/-- Witness for `customer_payload_allowlisted_and_nine_key_only` at a
concrete customer and a concrete payload element. -/
theorem customer_payload_allowlisted_witness :
    ("first_name", PyVal.str "Max") ∈ build_customer_payload sampleCustomer ∧
      ("first_name", PyVal.str "Max").1 ∈ allowed_payload_keys ∧
      ("first_name", PyVal.str "Max").2 ≠ PyVal.null :=
  ⟨by decide,
   ((customer_payload_allowlisted_and_nine_key_only sampleCustomer).1
     ("first_name", PyVal.str "Max") (by decide)).1,
   ((customer_payload_allowlisted_and_nine_key_only sampleCustomer).1
     ("first_name", PyVal.str "Max") (by decide)).2.1⟩

/-- C1: if the LLM mapping step is disabled, unconfigured, raises an
exception, or yields no mapping entries, then
`build_mapping_for_customer_with_strategy` returns the strategy
"fallback_mapping" together with exactly the heuristic
`build_fallback_mapping_for_customer` result on those field names, with each
entry's `field_id` set to its `template_field`; and the strategy "llm_gpt52"
is returned only when the LLM step returned a non-empty list. -/
theorem strategy_falls_back_when_llm_yields_nothing (env : LLMEnv)
    (field_names : List String) (customer : CustomerProfile) (pdf_bytes : List Nat)
    (h : build_llm_mapping_for_customer env pdf_bytes (build_customer_payload customer)
           allowed_customer_keys = none ∨
         build_llm_mapping_for_customer env pdf_bytes (build_customer_payload customer)
           allowed_customer_keys = some []) :
    ((env.enabled = false ∨ env.clientConfigured = false ∨
        env.responsesApiAvailable = false ∨ env.api = LLMApi.raises) →
      build_llm_mapping_for_customer env pdf_bytes (build_customer_payload customer)
        allowed_customer_keys = none)
    ∧ build_mapping_for_customer_with_strategy env field_names customer pdf_bytes =
        ("fallback_mapping",
          (build_fallback_mapping_for_customer field_names customer).map
            (fun f => { f with field_id := some f.template_field }))
    ∧ ∀ (env2 : LLMEnv) (fn2 : List String) (c2 : CustomerProfile) (pb2 : List Nat)
        (ms : List MappingEntry),
        build_mapping_for_customer_with_strategy env2 fn2 c2 pb2 = ("llm_gpt52", ms) →
        ∃ l, build_llm_mapping_for_customer env2 pb2 (build_customer_payload c2)
              allowed_customer_keys = some l ∧ l ≠ [] ∧
            ms = l.map (resolveLLMEntry (model_to_dict c2)) := by
  refine ⟨?_, ?_, ?_⟩
  · intro hd
    unfold build_llm_mapping_for_customer
    split
    · rfl
    next h1 =>
      split
      · rfl
      next h2 =>
        split
        · rfl
        next h3 =>
          split
          · rfl
          next raws h4 =>
            exfalso
            rcases hd with h5 | h5 | h5 | h5
            · exact h1 h5
            · simp [h5] at h2
            · exact h3 h5
            · rw [h4] at h5
              exact absurd h5 (by simp)
  · unfold build_mapping_for_customer_with_strategy
    dsimp only
    rcases h with h1 | h1 <;> rw [h1]
  · intro env2 fn2 c2 pb2 ms heq
    unfold build_mapping_for_customer_with_strategy at heq
    dsimp only at heq
    cases hres : build_llm_mapping_for_customer env2 pb2 (build_customer_payload c2)
        allowed_customer_keys with
    | none =>
      rw [hres] at heq
      dsimp only at heq
      exact absurd (congrArg Prod.fst heq) (by simp)
    | some l =>
      cases l with
      | nil =>
        rw [hres] at heq
        dsimp only at heq
        exact absurd (congrArg Prod.fst heq) (by simp)
      | cons x xs =>
        rw [hres] at heq
        dsimp only at heq
        refine ⟨x :: xs, rfl, by simp, ?_⟩
        have := congrArg Prod.snd heq
        simpa using this.symm

/-- Witness for `strategy_falls_back_when_llm_yields_nothing`: with the
feature flag off the LLM step yields `none` and the strategy is the
fallback mapping. -/
theorem strategy_falls_back_witness :
    (build_llm_mapping_for_customer disabledLLMEnv [1]
        (build_customer_payload sampleCustomer) allowed_customer_keys = none ∨
      build_llm_mapping_for_customer disabledLLMEnv [1]
        (build_customer_payload sampleCustomer) allowed_customer_keys = some [])
    ∧ build_mapping_for_customer_with_strategy disabledLLMEnv ["Vorname"]
        sampleCustomer [1] =
      ("fallback_mapping",
        (build_fallback_mapping_for_customer ["Vorname"] sampleCustomer).map
          (fun f => { f with field_id := some f.template_field })) :=
  ⟨Or.inl (by decide),
   (strategy_falls_back_when_llm_yields_nothing disabledLLMEnv ["Vorname"]
     sampleCustomer [1] (Or.inl (by decide))).2.1⟩

/-- Witness for `mapping_builders_entry_invariant` at a concrete LLM-produced
entry. -/
theorem mapping_builders_entry_invariant_witness :
    entryInvariant { template_field := "A", customer_key := some "first_name",
                     value := none, confidence := 0, status := "missing",
                     field_id := some "A" } :=
  (mapping_builders_entry_invariant
      { enabled := true, clientConfigured := true, responsesApiAvailable := true,
        api := .responds [{ field_ref := "A", customer_key := some "first_name",
                            confidence := .absent }] }
      [1] [] ["first_name"] [] sampleCustomer).1
    [{ template_field := "A", customer_key := some "first_name",
       value := none, confidence := 0, status := "missing", field_id := some "A" }]
    (by decide) _ (by decide)

theorem isEmpty_false_of_ne (s : String) (h : ¬ s = "") : s.isEmpty = false := by
  cases hb : s.isEmpty
  · rfl
  · exact absurd ((String.isEmpty_iff s).mp hb) h

theorem mem_dictSet (l : List (String × MappingEntry)) (k : String)
    (v : MappingEntry) : ∀ kv ∈ dictSet l k v, kv ∈ l ∨ kv = (k, v) := by
  induction l with
  | nil => intro kv hkv; simp [dictSet] at hkv; exact Or.inr hkv
  | cons hd tl ih =>
    intro kv hkv
    unfold dictSet at hkv
    by_cases he : hd.1 = k
    · simp only [he, if_true] at hkv
      rcases List.mem_cons.mp hkv with h | h
      · exact Or.inr h
      · exact Or.inl (List.mem_cons_of_mem _ h)
    · simp only [he, if_false] at hkv
      rcases List.mem_cons.mp hkv with h | h
      · exact Or.inl (h ▸ List.mem_cons_self _ _)
      · rcases ih kv h with h2 | h2
        · exact Or.inl (List.mem_cons_of_mem _ h2)
        · exact Or.inr h2

theorem mem_valueDictStep_best (best : List (String × MappingEntry))
    (conflicts : List MappingConflict) (m : MappingEntry) :
    ∀ kv ∈ (valueDictStep (best, conflicts) m).1, kv ∈ best ∨
      (m.status = "filled" ∧ m.value.isSome = true ∧
        pyStrip m.template_field = kv.1 ∧ ¬kv.1 = "" ∧ kv.2 = m) := by
  intro kv hkv
  unfold valueDictStep at hkv
  dsimp only at hkv
  split at hkv
  · exact Or.inl hkv
  next hcond =>
    have hc : (m.status == "filled" && m.value.isSome) = true := by
      cases hb : (m.status == "filled" && m.value.isSome)
      · rw [hb] at hcond; simp at hcond
      · rfl
    have hst : m.status = "filled" := by
      have := (Bool.and_eq_true _ _).mp hc
      exact eq_of_beq this.1
    have hvs : m.value.isSome = true := ((Bool.and_eq_true _ _).mp hc).2
    split at hkv
    · exact Or.inl hkv
    next hkey =>
      have hkne : ¬ pyStrip m.template_field = "" := by
        intro h
        rw [h] at hkey
        exact absurd hkey (by decide)
      split at hkv
      · rcases mem_dictSet _ _ _ kv hkv with h | h
        · exact Or.inl h
        · exact Or.inr ⟨hst, hvs, by rw [h], by rw [h]; exact hkne, by rw [h]⟩
      next prev hprev =>
        split at hkv
        · split at hkv
          · rcases mem_dictSet _ _ _ kv hkv with h | h
            · exact Or.inl h
            · exact Or.inr ⟨hst, hvs, by rw [h], by rw [h]; exact hkne, by rw [h]⟩
          · exact Or.inl hkv
        · split at hkv
          · rcases mem_dictSet _ _ _ kv hkv with h | h
            · exact Or.inl h
            · exact Or.inr ⟨hst, hvs, by rw [h], by rw [h]; exact hkne, by rw [h]⟩
          · exact Or.inl hkv

theorem mem_foldl_valueDictStep (mappings : List MappingEntry) :
    ∀ (st : List (String × MappingEntry) × List MappingConflict),
      ∀ kv ∈ (mappings.foldl valueDictStep st).1, kv ∈ st.1 ∨
        ∃ m ∈ mappings, m.status = "filled" ∧ m.value.isSome = true ∧
          pyStrip m.template_field = kv.1 ∧ ¬kv.1 = "" ∧ kv.2 = m := by
  induction mappings with
  | nil => intro st kv hkv; exact Or.inl hkv
  | cons m ms ih =>
    intro st kv hkv
    rw [List.foldl_cons] at hkv
    rcases ih (valueDictStep st m) kv hkv with h | ⟨m', hm', hrest⟩
    · obtain ⟨best, conflicts⟩ := st
      rcases mem_valueDictStep_best best conflicts m kv h with h2 | h2
      · exact Or.inl h2
      · exact Or.inr ⟨m, List.mem_cons_self _ _, h2⟩
    · exact Or.inr ⟨m', List.mem_cons_of_mem _ hm', hrest⟩

/-- C4: `_build_value_dict_from_mappings` builds the value dict only from
entries with status "filled", a non-None value and a non-empty stripped
field name; for two such entries assigning the same field different values,
the entry with strictly greater confidence is kept (on equal confidence the
earlier entry wins) and exactly one conflict record naming the kept and
dropped entries is appended; two entries with equal values for the same
field produce no conflict record. -/
theorem value_dict_filter_and_conflict_resolution (m1 m2 : MappingEntry)
    (v1 v2 : String)
    (h1 : m1.status = "filled") (h2 : m1.value = some v1)
    (h3 : m2.status = "filled") (h4 : m2.value = some v2)
    (hk : pyStrip m2.template_field = pyStrip m1.template_field)
    (hne : ¬ pyStrip m1.template_field = "") :
    (∀ (mappings : List MappingEntry) (k v : String),
        (k, v) ∈ (build_value_dict_from_mappings mappings).1 →
        ∃ m ∈ mappings, m.status = "filled" ∧ m.value = some v ∧
          pyStrip m.template_field = k ∧ ¬ k = "")
    ∧ (¬ v1 = v2 →
        build_value_dict_from_mappings [m1, m2] =
          (if m1.confidence < m2.confidence then
            ([(pyStrip m1.template_field, v2)],
             [{ field_name := pyStrip m1.template_field, kept := m2, dropped := m1 }])
          else
            ([(pyStrip m1.template_field, v1)],
             [{ field_name := pyStrip m1.template_field, kept := m1, dropped := m2 }])))
    ∧ (v1 = v2 → (build_value_dict_from_mappings [m1, m2]).2 = []) := by
  have hkey1 : (pyStrip m1.template_field).isEmpty = false :=
    isEmpty_false_of_ne _ hne
  have s1 : valueDictStep ([], []) m1 = ([(pyStrip m1.template_field, m1)], []) := by
    unfold valueDictStep
    simp [h1, h2, hkey1, dictSet]
  refine ⟨?_, ?_, ?_⟩
  · intro mappings k v hkv
    unfold build_value_dict_from_mappings at hkv
    dsimp only at hkv
    rw [List.mem_filterMap] at hkv
    obtain ⟨kv0, hkv0, hf⟩ := hkv
    rcases mem_foldl_valueDictStep mappings ([], []) kv0 hkv0 with
      h | ⟨m, hm, hst, _, hkk, hkne, hmv⟩
    · simp at h
    · cases hval : kv0.2.value with
      | none => rw [hval] at hf; simp at hf
      | some v0 =>
        rw [hval] at hf
        simp at hf
        obtain ⟨hf1, hf2⟩ := hf
        exact ⟨m, hm, hst, by rw [← hmv, hval, hf2], by rw [hkk, hf1],
          by rw [← hf1]; exact hkne⟩
  · intro hv
    have s2t : m1.confidence < m2.confidence →
        valueDictStep ([(pyStrip m1.template_field, m1)], []) m2 =
          ([(pyStrip m1.template_field, m2)],
           [{ field_name := pyStrip m1.template_field, kept := m2, dropped := m1 }]) := by
      intro hc
      unfold valueDictStep
      simp [h3, h4, hk, hkey1, List.lookup, h2, hv, hc, dictSet]
    have s2f : ¬ m1.confidence < m2.confidence →
        valueDictStep ([(pyStrip m1.template_field, m1)], []) m2 =
          ([(pyStrip m1.template_field, m1)],
           [{ field_name := pyStrip m1.template_field, kept := m1, dropped := m2 }]) := by
      intro hc
      unfold valueDictStep
      simp [h3, h4, hk, hkey1, List.lookup, h2, hv, hc, dictSet]
    by_cases hc : m1.confidence < m2.confidence
    · rw [if_pos hc]
      unfold build_value_dict_from_mappings
      simp only [List.foldl_cons, List.foldl_nil, s1, s2t hc]
      simp [h4]
    · rw [if_neg hc]
      unfold build_value_dict_from_mappings
      simp only [List.foldl_cons, List.foldl_nil, s1, s2f hc]
      simp [h2]
  · intro hveq
    have s2e : valueDictStep ([(pyStrip m1.template_field, m1)], []) m2 =
        (if m1.confidence < m2.confidence
          then ([(pyStrip m1.template_field, m2)], [])
          else ([(pyStrip m1.template_field, m1)], [])) := by
      unfold valueDictStep
      simp [h3, h4, hk, hkey1, List.lookup, h2, ← hveq, dictSet]
    unfold build_value_dict_from_mappings
    simp only [List.foldl_cons, List.foldl_nil, s1, s2e]
    split <;> rfl

/-- Witness for `value_dict_filter_and_conflict_resolution`: two filled
entries targeting the (stripped) field "A" with different values resolve to
the higher-confidence value with exactly one conflict record. -/
theorem value_dict_filter_witness :
    (¬ ("x" : String) = "y") ∧
    build_value_dict_from_mappings
        [{ template_field := "A", customer_key := none, value := some "x",
           confidence := 0, status := "filled", field_id := none },
         { template_field := " A", customer_key := none, value := some "y",
           confidence := 1, status := "filled", field_id := none }] =
      (if (0 : Rat) < 1 then
        ([(pyStrip "A", "y")],
         [{ field_name := pyStrip "A",
            kept := { template_field := " A", customer_key := none, value := some "y",
                      confidence := 1, status := "filled", field_id := none },
            dropped := { template_field := "A", customer_key := none, value := some "x",
                         confidence := 0, status := "filled", field_id := none } }])
      else
        ([(pyStrip "A", "x")],
         [{ field_name := pyStrip "A",
            kept := { template_field := "A", customer_key := none, value := some "x",
                      confidence := 0, status := "filled", field_id := none },
            dropped := { template_field := " A", customer_key := none, value := some "y",
                         confidence := 1, status := "filled", field_id := none } }])) :=
  ⟨by decide,
   (value_dict_filter_and_conflict_resolution
     { template_field := "A", customer_key := none, value := some "x",
       confidence := 0, status := "filled", field_id := none }
     { template_field := " A", customer_key := none, value := some "y",
       confidence := 1, status := "filled", field_id := none }
     "x" "y" rfl rfl rfl rfl (by decide) (by decide)).2.1 (by decide)⟩

/-- C2 (code bug): `_render_pdf_acroform_template` does NOT complete normally
when every mapping entry has status "missing".  For a template with a file
whose PDF has the single form field "xyz" (matching no customer attribute)
and the LLM step disabled, every mapping entry is "missing", `fill_targets`
is empty, `out_buf` is never assigned, and the function raises
`UnboundLocalError` at `return out_buf.getvalue()` instead of returning the
written PDF bytes with the all-missing report. -/
theorem render_pdf_unbound_local_on_all_missing :
    (render_pdf_acroform_template disabledLLMEnv true [1] ["xyz"] sampleCustomer
        true (fun _ _ => none)).result
      = Except.error RenderErr.unboundLocalOutBuf
    ∧ ∀ m ∈ (build_mapping_for_customer_with_strategy disabledLLMEnv ["xyz"]
        sampleCustomer [1]).2, m.status = "missing" := by
  decide

/-- C3 (counterexample): two LLM mapping entries targeting the same template
field "A" with different values are not merged; the fill loop of
`_render_pdf_acroform_template` writes the field once per filled entry, so
the write sequence mentions "A" twice. -/
theorem duplicate_field_mappings_written_twice :
    (render_pdf_acroform_template
        { enabled := true, clientConfigured := true, responsesApiAvailable := true,
          api := .responds
            [{ field_ref := "A", customer_key := some "first_name", confidence := .num 1 },
             { field_ref := "A", customer_key := some "last_name", confidence := .num 1 }] }
        true [1] ["A"] sampleCustomer true (fun _ _ => none)).writes
      = [("A", "Max"), ("A", "Muster")]
    ∧ ¬ ([("A", "Max"), ("A", "Muster")].map Prod.fst).Nodup := by
  decide

/-- C3 (amended): duplicate mapping entries are not merged before filling;
for every render through `_render_pdf_acroform_template` (template with a
file, at least one named form field, writer with pages) the sequence of
form-field writes is exactly one write per "filled" mapping entry, in order,
duplicates included, each passing that entry's field name and value. -/
theorem fill_writes_one_per_filled_entry (env : LLMEnv) (hasFile : Bool)
    (pdf_bytes : List Nat) (fields : List String) (customer : CustomerProfile)
    (writerPages : Bool) (safeFill : String → String → Option String)
    (hfile : hasFile = true)
    (hfields : ¬ (fields.filter fun n => !n.isEmpty).isEmpty = true)
    (hwp : writerPages = true) :
    (render_pdf_acroform_template env hasFile pdf_bytes fields customer
        writerPages safeFill).writes
      = (fillTargets (build_mapping_for_customer_with_strategy env
            (fields.filter fun n => !n.isEmpty) customer pdf_bytes).2).map
          (fun m => (m.template_field, m.value.getD "")) := by
  subst hfile
  subst hwp
  unfold render_pdf_acroform_template
  split
  next h => exact absurd h (by simp)
  dsimp only
  split
  next h => exact absurd h hfields
  split
  next hcond => rfl
  next hcond =>
    have hft : fillTargets (build_mapping_for_customer_with_strategy env
        (fields.filter fun n => !n.isEmpty) customer pdf_bytes).2 = [] := by
      cases hb : (fillTargets (build_mapping_for_customer_with_strategy env
          (fields.filter fun n => !n.isEmpty) customer pdf_bytes).2).isEmpty
      · exact absurd (by simp [hb]) hcond
      · exact List.isEmpty_iff.mp hb
    simp [hft]

/-- Witness for `fill_writes_one_per_filled_entry` at a concrete render with
two duplicate filled entries. -/
theorem fill_writes_one_per_filled_entry_witness :
    (render_pdf_acroform_template
        { enabled := true, clientConfigured := true, responsesApiAvailable := true,
          api := .responds
            [{ field_ref := "A", customer_key := some "first_name", confidence := .num 1 },
             { field_ref := "A", customer_key := some "last_name", confidence := .num 1 }] }
        true [1] ["A"] sampleCustomer true (fun _ _ => none)).writes
      = (fillTargets (build_mapping_for_customer_with_strategy
            { enabled := true, clientConfigured := true, responsesApiAvailable := true,
              api := .responds
                [{ field_ref := "A", customer_key := some "first_name", confidence := .num 1 },
                 { field_ref := "A", customer_key := some "last_name", confidence := .num 1 }] }
            (["A"].filter fun n => !n.isEmpty) sampleCustomer [1]).2).map
          (fun m => (m.template_field, m.value.getD "")) :=
  fill_writes_one_per_filled_entry
    { enabled := true, clientConfigured := true, responsesApiAvailable := true,
      api := .responds
        [{ field_ref := "A", customer_key := some "first_name", confidence := .num 1 },
         { field_ref := "A", customer_key := some "last_name", confidence := .num 1 }] }
    true [1] ["A"] sampleCustomer true (fun _ _ => none) rfl (by decide) rfl

/-- C5 (counterexample): the identifier CAN contain the plaintext field name.
For a widget on page 0 whose field name happens to be "p0", the identifier
"p0|w1_0_R" contains the field name "p0" as a substring (here even as a
prefix), although no hashing was involved. -/
theorem field_id_contains_plaintext_field_name :
    ∃ pre post : String,
      build_field_id 0 (some "1 0 R") none none (some "p0") = pre ++ "p0" ++ post :=
  ⟨"", "|w1_0_R", by decide⟩

theorem pyJoin_cons_exists (sep : String) (x : String) (xs : List String) :
    ∃ rest, pyJoin sep (x :: xs) = x ++ rest := by
  cases xs with
  | nil => exact ⟨"", by simp [pyJoin]⟩
  | cons y ys =>
    refine ⟨sep ++ pyJoin sep (y :: ys), ?_⟩
    show x ++ sep ++ pyJoin sep (y :: ys) = x ++ (sep ++ pyJoin sep (y :: ys))
    rw [String.append_assoc]

/-- C5 (amended): `_build_field_id` is a deterministic function of its
inputs; the identifier always starts with "p" followed by the page index;
when a widget reference, a parent reference distinct from the widget
reference, or a non-empty rectangle is available, the identifier is the
"|"-join of the page part with the "w…", "f…" and "r…" parts in that order
and is then entirely independent of the field name; only when none of these
parts is available does it fall back to "p{page}|h" followed by the first 12
hex digits of the SHA-1 of the field name joined with the page index — so
the field name never enters the identifier other than through that hash
(although the identifier can coincidentally contain the field name as a
substring, see the counterexample). -/
theorem field_id_structure_and_name_independence (page_index : Nat)
    (widget_ref parent_ref : Option String) (rect : Option (List Rat))
    (field_name_fallback : Option String) :
    (∃ rest, build_field_id page_index widget_ref parent_ref rect field_name_fallback
        = "p" ++ toString page_index ++ rest)
    ∧ (widgetPart widget_ref ++ parentPart widget_ref parent_ref ++ rectPart rect ≠ [] →
        (∀ n' : Option String,
          build_field_id page_index widget_ref parent_ref rect field_name_fallback =
            build_field_id page_index widget_ref parent_ref rect n')
        ∧ build_field_id page_index widget_ref parent_ref rect field_name_fallback =
            pyJoin "|" (("p" ++ toString page_index) ::
              (widgetPart widget_ref ++ parentPart widget_ref parent_ref ++ rectPart rect)))
    ∧ (widgetPart widget_ref ++ parentPart widget_ref parent_ref ++ rectPart rect = [] →
        build_field_id page_index widget_ref parent_ref rect field_name_fallback =
          "p" ++ toString page_index ++ "|h" ++
            (sha1Hex ((field_name_fallback.getD "") ++ "|" ++ toString page_index)).take 12) := by
  refine ⟨?_, ?_, ?_⟩
  · unfold build_field_id
    dsimp only
    split
    · exact pyJoin_cons_exists "|" _ _
    · refine ⟨"|h" ++ (sha1Hex ((field_name_fallback.getD "") ++ "|" ++
        toString page_index)).take 12, ?_⟩
      rw [String.append_assoc, String.append_assoc]
  · intro hne
    have hlen : 1 < (("p" ++ toString page_index) ::
        (widgetPart widget_ref ++ parentPart widget_ref parent_ref ++ rectPart rect)).length := by
      have := List.length_pos.mpr hne
      simp only [List.length_cons]
      omega
    constructor
    · intro n'
      unfold build_field_id
      dsimp only
      rw [if_pos hlen, if_pos hlen]
    · unfold build_field_id
      dsimp only
      rw [if_pos hlen]
  · intro hnil
    have hlen : ¬ 1 < (("p" ++ toString page_index) ::
        (widgetPart widget_ref ++ parentPart widget_ref parent_ref ++ rectPart rect)).length := by
      rw [hnil]
      simp
    unfold build_field_id
    dsimp only
    rw [if_neg hlen]

/-- Witness for `field_id_structure_and_name_independence`: with a widget
reference present the identifier is the joined parts and ignores the field
name. -/
theorem field_id_structure_witness :
    build_field_id 0 (some "1 0 R") none none (some "Name") =
      pyJoin "|" (("p" ++ toString 0) ::
        (widgetPart (some "1 0 R") ++ parentPart (some "1 0 R") none ++ rectPart none))
    ∧ build_field_id 0 (some "1 0 R") none none (some "Name") =
        build_field_id 0 (some "1 0 R") none none (some "Other") :=
  ⟨((field_id_structure_and_name_independence 0 (some "1 0 R") none none
      (some "Name")).2.1 (by decide)).2,
   ((field_id_structure_and_name_independence 0 (some "1 0 R") none none
      (some "Name")).2.1 (by decide)).1 (some "Other")⟩

/-- C6 (counterexample): two deviations from the claim as stated.
(i) The direct-hit test compares the STRIPPED field_ref against the field
names: for field_ref " x" (which is exactly one of the /T field names) the
function returns `None`, not the field_ref itself.
(ii) Candidates are matched on the normalized (`/TU` or-else `/T` or-else
name) label plus the last name segment, not on "/TU, /T, or last segment":
for a field "a" with tooltip "labelX" and partial name /T "b", the
field_ref "b" (whose normalization equals the normalized /T name) yields
`None`, not "a". -/
theorem resolve_field_ref_counterexample :
    ((" x" ∈ ([" x"] : List String))
      ∧ resolve_field_ref_to_field_name " x" [" x"] [] = none)
    ∧ (normalize_match_key "b" =
        normalize_match_key ((fun f => match f.t with | some t => t | none => "")
          ({ tu := some "labelX", t := some "b" } : PdfFormField))
      ∧ resolve_field_ref_to_field_name "b" ["a"]
          [("a", { tu := some "labelX", t := some "b" })] = none) := by
  decide

theorem resolve_reduction (field_ref : String) (field_names : List String)
    (fields : List (String × PdfFormField))
    (hemp : (pyStrip field_ref).isEmpty = false)
    (hmem : pyStrip field_ref ∉ field_names) :
    resolve_field_ref_to_field_name field_ref field_names fields =
      (if (resolveCandidates field_ref fields).isEmpty then none
       else
        match resolveNth field_ref with
        | some n =>
          if 1 ≤ n ∧ n ≤ (sortedSet (resolveCandidates field_ref fields)).length
          then (sortedSet (resolveCandidates field_ref fields)).get? (n - 1)
          else (sortedSet (resolveCandidates field_ref fields)).get? 0
        | none => (sortedSet (resolveCandidates field_ref fields)).get? 0) := by
  unfold resolve_field_ref_to_field_name resolveCandidates resolveNth
  dsimp only
  rw [if_neg (by simp [hemp]), if_neg hmem]
  cases hsn : splitSuffixNum (pyStrip field_ref) with
  | none => rfl
  | some bn => rfl

/-- C6 (amended): `_resolve_field_ref_to_field_name` returns the STRIPPED
field_ref when that stripped form is exactly one of the /T field names
(and the stripped field_ref is non-empty); otherwise, with `candidates` the
field names indexed under the normalized base — a field is indexed under
its normalized `/TU` or-else `/T` or-else field-name label and, only when
that label normalization is non-empty, additionally under the non-empty
normalization of the last dotted segment of its name (a field whose label
normalizes to the empty string is not indexed at all) — a parsed `_N`
suffix with 1 ≤ N ≤ |candidates| selects the N-th (1-based) element of the
sorted de-duplicated candidates, no usable suffix or an out-of-range N
selects the first, and the function returns `None` exactly when the
stripped field_ref is empty or (there is no direct hit and) no candidate
matches. -/
theorem resolve_field_ref_behaviour (field_ref : String) (field_names : List String)
    (fields : List (String × PdfFormField)) :
    (¬ pyStrip field_ref = "" → pyStrip field_ref ∈ field_names →
      resolve_field_ref_to_field_name field_ref field_names fields =
        some (pyStrip field_ref))
    ∧ (¬ pyStrip field_ref = "" → pyStrip field_ref ∉ field_names →
        resolveCandidates field_ref fields ≠ [] →
        ((∀ n, resolveNth field_ref = some n →
            1 ≤ n → n ≤ (sortedSet (resolveCandidates field_ref fields)).length →
            resolve_field_ref_to_field_name field_ref field_names fields =
              (sortedSet (resolveCandidates field_ref fields)).get? (n - 1))
          ∧ ((resolveNth field_ref = none ∨
              (∃ n, resolveNth field_ref = some n ∧
                ¬(1 ≤ n ∧ n ≤ (sortedSet (resolveCandidates field_ref fields)).length))) →
            resolve_field_ref_to_field_name field_ref field_names fields =
              (sortedSet (resolveCandidates field_ref fields)).get? 0)))
    ∧ (resolve_field_ref_to_field_name field_ref field_names fields = none ↔
        (pyStrip field_ref = "" ∨
          (pyStrip field_ref ∉ field_names ∧ resolveCandidates field_ref fields = []))) := by
  by_cases hemp : pyStrip field_ref = ""
  · have hR : resolve_field_ref_to_field_name field_ref field_names fields = none := by
      unfold resolve_field_ref_to_field_name
      rw [if_pos (by rw [hemp]; rfl)]
    exact ⟨fun hne => absurd hemp hne, fun hne => absurd hemp hne,
      by rw [hR]; simp [hemp]⟩
  · have hempB : (pyStrip field_ref).isEmpty = false := isEmpty_false_of_ne _ hemp
    by_cases hmem : pyStrip field_ref ∈ field_names
    · have hR : resolve_field_ref_to_field_name field_ref field_names fields =
          some (pyStrip field_ref) := by
        unfold resolve_field_ref_to_field_name
        rw [if_neg (by simp [hempB]), if_pos hmem]
      refine ⟨fun _ _ => hR, fun _ hnot => absurd hmem hnot, ?_⟩
      rw [hR]
      simp [hemp, hmem]
    · have hR := resolve_reduction field_ref field_names fields hempB hmem
      by_cases hcand : resolveCandidates field_ref fields = []
      · have hce : (resolveCandidates field_ref fields).isEmpty = true := by
          rw [hcand]; rfl
        refine ⟨fun _ hm => absurd hmem (by simpa using hm),
          fun _ _ hne => absurd hcand hne, ?_⟩
        rw [hR, if_pos hce]
        simp [hemp, hmem, hcand]
      · have hce : (resolveCandidates field_ref fields).isEmpty = false := by
          cases hb : (resolveCandidates field_ref fields).isEmpty
          · rfl
          · exact absurd (List.isEmpty_iff.mp hb) hcand
        have hsortne : sortedSet (resolveCandidates field_ref fields) ≠ [] := by
          intro hnil
          have hlen := congrArg List.length hnil
          rw [sortedSet, List.length_insertionSort] at hlen
          exact hcand ((List.dedup_eq_nil _).mp (List.length_eq_zero.mp hlen))
        rw [if_neg (by simp [hce])] at hR
        refine ⟨fun _ hm => absurd hmem (by simpa using hm), fun _ _ _ => ⟨?_, ?_⟩, ?_⟩
        · intro n hn h1 h2
          rw [hR, hn]
          dsimp only
          rw [if_pos ⟨h1, h2⟩]
        · intro hcase
          rcases hcase with hn | ⟨n, hn, hout⟩
          · rw [hR, hn]
          · rw [hR, hn]
            dsimp only
            rw [if_neg hout]
        · rw [hR]
          have hnone : ∀ i, i < (sortedSet (resolveCandidates field_ref fields)).length →
              (sortedSet (resolveCandidates field_ref fields)).get? i ≠ none := by
            intro i hi h
            rw [List.get?_eq_none] at h
            omega
          have hpos : 0 < (sortedSet (resolveCandidates field_ref fields)).length :=
            List.length_pos.mpr hsortne
          constructor
          · intro h
            exfalso
            cases hn : resolveNth field_ref with
            | none =>
              rw [hn] at h
              exact hnone 0 hpos h
            | some n =>
              rw [hn] at h
              dsimp only at h
              by_cases hin : 1 ≤ n ∧ n ≤ (sortedSet (resolveCandidates field_ref fields)).length
              · rw [if_pos hin] at h
                exact hnone (n - 1) (by omega) h
              · rw [if_neg hin] at h
                exact hnone 0 hpos h
          · intro h
            rcases h with h | ⟨_, h⟩
            · exact absurd h hemp
            · exact absurd h hcand

/-- Witness for `resolve_field_ref_behaviour`: a concrete direct /T hit and
a concrete suffix resolution. -/
theorem resolve_field_ref_behaviour_witness :
    resolve_field_ref_to_field_name "a" ["a"] [] = some (pyStrip "a")
    ∧ resolve_field_ref_to_field_name "Telefon_2"
        ["form1.Telefon[0]", "form2.Telefon[0]"]
        [("form1.Telefon[0]", { tu := some "Telefon", t := some "Telefon[0]" }),
         ("form2.Telefon[0]", { tu := none, t := some "Telefon[0]" })] =
      (sortedSet (resolveCandidates "Telefon_2"
        [("form1.Telefon[0]", { tu := some "Telefon", t := some "Telefon[0]" }),
         ("form2.Telefon[0]", { tu := none, t := some "Telefon[0]" })])).get? 0 :=
  ⟨(resolve_field_ref_behaviour "a" ["a"] []).1 (by decide) (by decide),
   ((resolve_field_ref_behaviour "Telefon_2"
       ["form1.Telefon[0]", "form2.Telefon[0]"]
       [("form1.Telefon[0]", { tu := some "Telefon", t := some "Telefon[0]" }),
        ("form2.Telefon[0]", { tu := none, t := some "Telefon[0]" })]).2.1
     (by decide) (by decide) (by decide)).2
     (Or.inr ⟨2, by decide, by decide⟩)⟩

theorem processLog_id (o : Nat → SendResult) (now : Int) (l : RLog) :
    ((processLog o now l).1).id = l.id := by
  unfold processLog markFailed markSent
  split
  · rfl
  · split <;> rfl

theorem processLog_event (o : Nat → SendResult) (now : Int) (l : RLog) :
    (processLog o now l).2 =
      { log_id := l.id, log_due := l.due_at, attempted := l.rule_enabled } := by
  unfold processLog
  split
  next h => rw [h]
  next h =>
    have ht : l.rule_enabled = true := by
      cases hb : l.rule_enabled
      · exact absurd hb h
      · rfl
    split <;> rw [ht]

theorem eq_of_mem_of_id_eq (L : List RLog) (hnd : (L.map RLog.id).Nodup)
    (a b : RLog) (ha : a ∈ L) (hb : b ∈ L) (hid : a.id = b.id) : a = b := by
  induction L with
  | nil => cases ha
  | cons x xs ih =>
    rw [List.map_cons, List.nodup_cons] at hnd
    rcases List.mem_cons.mp ha with ha1 | ha1 <;> rcases List.mem_cons.mp hb with hb1 | hb1
    · rw [ha1, hb1]
    · subst ha1
      exact absurd (hid ▸ List.mem_map_of_mem RLog.id hb1) hnd.1
    · subst hb1
      have hx : b.id ∈ xs.map RLog.id := hid ▸ List.mem_map_of_mem RLog.id ha1
      exact absurd hx hnd.1
    · exact ih hnd.2 ha1 hb1

theorem find_processed_of_mem (o : Nat → SendResult) (now : Int) (L : List RLog)
    (hnd : (L.map RLog.id).Nodup) (l : RLog) (hl : l ∈ L) :
    (L.map (processLog o now)).find? (fun p => p.1.id == l.id) =
      some (processLog o now l) := by
  induction L with
  | nil => cases hl
  | cons x xs ih =>
    rw [List.map_cons, List.nodup_cons] at hnd
    rw [List.map_cons]
    rcases List.mem_cons.mp hl with heq | hmem
    · rw [heq]
      rw [List.find?_cons_of_pos]
      simp [processLog_id]
    · have hx : ¬ x.id = l.id := by
        intro he
        exact hnd.1 (he ▸ List.mem_map_of_mem RLog.id hmem)
      rw [List.find?_cons_of_neg]
      · exact ih hnd.2 hmem
      · simp [processLog_id, hx]

theorem find_processed_of_not_mem (o : Nat → SendResult) (now : Int) (L : List RLog)
    (l : RLog) (hid : l.id ∉ L.map RLog.id) :
    (L.map (processLog o now)).find? (fun p => p.1.id == l.id) = none := by
  rw [List.find?_eq_none]
  intro p hp
  rw [List.mem_map] at hp
  obtain ⟨x, hx, rfl⟩ := hp
  have : ¬ x.id = l.id := fun he => hid (he ▸ List.mem_map_of_mem RLog.id hx)
  simp [processLog_id, this]

/-- C7: a configured run of the `send_due_reminders` command processes
exactly the logs that were pending with `due_at` at or before the run's
reference time, in ascending `due_at` order; a pending-and-due log whose
rule is disabled is marked failed ("Regel wurde deaktiviert.") without a
send attempt; an attempted send leaves the log sent (with `sent_at` set and
the provider response id recorded) on success and failed (with the error
text truncated to 1000 characters) on a provider error; all other logs are
left unchanged (the `map` characterization: non-pending-or-due logs map to
themselves). -/
theorem send_due_reminders_processing (now : Int) (outcome : Nat → SendResult)
    (logs : List RLog) (hids : (logs.map RLog.id).Nodup)
    (hblank : ∀ l ∈ logs, l.status = RStatus.pending → l.provider_response_id = "") :
    (sendDueReminders true now outcome logs).1 =
        logs.map (fun l =>
          if l.status = RStatus.pending ∧ l.due_at ≤ now
          then (processLog outcome now l).1 else l)
    ∧ (∀ ev ∈ (sendDueReminders true now outcome logs).2,
        ∃ q ∈ logs, q.status = RStatus.pending ∧ q.due_at ≤ now ∧
          ev = { log_id := q.id, log_due := q.due_at, attempted := q.rule_enabled })
    ∧ List.Pairwise (fun a b => a.log_due ≤ b.log_due)
        (sendDueReminders true now outcome logs).2
    ∧ (∀ l ∈ logs, l.status = RStatus.pending → l.due_at ≤ now →
        ((l.rule_enabled = false →
            (processLog outcome now l).1.status = RStatus.failed
            ∧ (processLog outcome now l).1.error_text = "Regel wurde deaktiviert."
            ∧ ∀ ev ∈ (sendDueReminders true now outcome logs).2,
                ev.log_id = l.id → ev.attempted = false)
          ∧ (∀ rid, l.rule_enabled = true → outcome l.id = SendResult.ok rid →
              (processLog outcome now l).1.status = RStatus.sent
              ∧ (processLog outcome now l).1.sent_at = some now
              ∧ (processLog outcome now l).1.provider_response_id = rid)
          ∧ (∀ e, l.rule_enabled = true → outcome l.id = SendResult.err e →
              (processLog outcome now l).1.status = RStatus.failed
              ∧ (processLog outcome now l).1.error_text =
                  String.mk (e.data.take 1000)))) := by
  have hpending_iff : ∀ l : RLog,
      isPendingDue now l = true ↔ (l.status = RStatus.pending ∧ l.due_at ≤ now) := by
    intro l
    unfold isPendingDue
    rw [Bool.and_eq_true]
    constructor
    · exact fun h => ⟨eq_of_beq h.1, of_decide_eq_true h.2⟩
    · exact fun h => ⟨by rw [h.1]; rfl, decide_eq_true h.2⟩
  have hS : sendDueReminders true now outcome logs =
      ((logs.map fun l =>
        match ((List.insertionSort (fun a b => a.due_at ≤ b.due_at)
            (logs.filter (isPendingDue now))).map (processLog outcome now)).find?
            (fun p => p.1.id == l.id) with
        | some p => p.1
        | none => l),
       ((List.insertionSort (fun a b => a.due_at ≤ b.due_at)
          (logs.filter (isPendingDue now))).map (processLog outcome now)).map Prod.snd) := by
    unfold sendDueReminders
    rw [if_neg (by simp)]
  have hsub : (logs.filter (isPendingDue now)).Sublist logs := List.filter_sublist logs
  have hfl_nodup : ((logs.filter (isPendingDue now)).map RLog.id).Nodup :=
    List.Nodup.sublist (hsub.map RLog.id) hids
  have hperm : List.Perm
      ((List.insertionSort (fun a b => a.due_at ≤ b.due_at)
        (logs.filter (isPendingDue now))).map RLog.id)
      ((logs.filter (isPendingDue now)).map RLog.id) :=
    (List.perm_insertionSort _ _).map _
  have hpn : ((List.insertionSort (fun a b => a.due_at ≤ b.due_at)
      (logs.filter (isPendingDue now))).map RLog.id).Nodup :=
    hperm.nodup_iff.mpr hfl_nodup
  have hmem_pending : ∀ l : RLog,
      l ∈ List.insertionSort (fun a b => a.due_at ≤ b.due_at)
        (logs.filter (isPendingDue now)) ↔
      (l ∈ logs ∧ l.status = RStatus.pending ∧ l.due_at ≤ now) := by
    intro l
    rw [List.mem_insertionSort, List.mem_filter, hpending_iff]
  have hev_char : ∀ ev ∈ (sendDueReminders true now outcome logs).2,
      ∃ q ∈ logs, q.status = RStatus.pending ∧ q.due_at ≤ now ∧
        ev = { log_id := q.id, log_due := q.due_at, attempted := q.rule_enabled } := by
    intro ev hev
    rw [hS] at hev
    dsimp only at hev
    rw [List.map_map, List.mem_map] at hev
    obtain ⟨q, hq, rfl⟩ := hev
    obtain ⟨hql, hqst, hqdue⟩ := (hmem_pending q).mp hq
    exact ⟨q, hql, hqst, hqdue, processLog_event outcome now q⟩
  refine ⟨?_, hev_char, ?_, ?_⟩
  · rw [hS]
    dsimp only
    refine List.map_congr_left ?_
    intro l hl
    by_cases hpd : l.status = RStatus.pending ∧ l.due_at ≤ now
    · rw [if_pos hpd]
      rw [find_processed_of_mem outcome now _ hpn l ((hmem_pending l).mpr ⟨hl, hpd⟩)]
    · rw [if_neg hpd]
      rw [find_processed_of_not_mem outcome now _ l ?_]
      intro hin
      rw [List.mem_map] at hin
      obtain ⟨q, hq, hqid⟩ := hin
      obtain ⟨hql, hqst, hqdue⟩ := (hmem_pending q).mp hq
      have : q = l := eq_of_mem_of_id_eq logs hids q l hql hl hqid
      exact hpd (this ▸ ⟨hqst, hqdue⟩)
  · rw [hS]
    dsimp only
    rw [List.map_map, List.pairwise_map]
    have hsorted : List.Pairwise (fun a b => a.due_at ≤ b.due_at)
        (List.insertionSort (fun a b => a.due_at ≤ b.due_at)
          (logs.filter (isPendingDue now))) :=
      List.sorted_insertionSort _ _
    refine hsorted.imp ?_
    intro a b h
    dsimp only [Function.comp]
    rw [processLog_event, processLog_event]
    exact h
  · intro l hl hst hdue
    refine ⟨?_, ?_, ?_⟩
    · intro hre
      have hpl : (processLog outcome now l).1 =
          markFailed l "Regel wurde deaktiviert." := by
        unfold processLog
        rw [if_pos hre]
      refine ⟨by rw [hpl]; rfl,
        by
          rw [hpl]
          show String.mk ("Regel wurde deaktiviert.".data.take 1000) =
            "Regel wurde deaktiviert."
          decide, ?_⟩
      intro ev hev hevid
      obtain ⟨q, hql, _, _, heveq⟩ := hev_char ev hev
      have hqid : q.id = l.id := by rw [heveq] at hevid; exact hevid
      have : q = l := eq_of_mem_of_id_eq logs hids q l hql hl hqid
      rw [heveq, this, hre]
    · intro rid hre hok
      have hpl : (processLog outcome now l).1 = markSent now l rid := by
        unfold processLog
        rw [if_neg (by rw [hre]; simp), hok]
      refine ⟨by rw [hpl]; rfl, by rw [hpl]; rfl, ?_⟩
      rw [hpl]
      unfold markSent
      dsimp only
      cases hri : rid.isEmpty with
      | false => simp
      | true =>
        simp only [if_true]
        rw [hblank l hl hst, (String.isEmpty_iff rid).mp hri]
    · intro e hre herr
      have hpl : (processLog outcome now l).1 = markFailed l e := by
        unfold processLog
        rw [if_neg (by rw [hre]; simp), herr]
      exact ⟨by rw [hpl]; rfl, by rw [hpl]; rfl⟩

/-- Witness for `send_due_reminders_processing` at a concrete four-log table
(one due log with enabled rule, one due log with disabled rule, one already
sent, one not yet due). -/
theorem send_due_reminders_witness :
    (sendDueReminders true 100
        (fun i => if i = 1 then SendResult.ok "mid-1" else SendResult.err "boom")
        [{ id := 1, status := .pending, due_at := 90, sent_at := none,
           provider_response_id := "", error_text := "", rule_enabled := true },
         { id := 2, status := .pending, due_at := 50, sent_at := none,
           provider_response_id := "", error_text := "", rule_enabled := false },
         { id := 3, status := .sent, due_at := 10, sent_at := some 5,
           provider_response_id := "x", error_text := "", rule_enabled := true },
         { id := 4, status := .pending, due_at := 200, sent_at := none,
           provider_response_id := "", error_text := "", rule_enabled := true }]).1
      = ([{ id := 1, status := .pending, due_at := 90, sent_at := none,
            provider_response_id := "", error_text := "", rule_enabled := true },
          { id := 2, status := .pending, due_at := 50, sent_at := none,
            provider_response_id := "", error_text := "", rule_enabled := false },
          { id := 3, status := .sent, due_at := 10, sent_at := some 5,
            provider_response_id := "x", error_text := "", rule_enabled := true },
          { id := 4, status := .pending, due_at := 200, sent_at := none,
            provider_response_id := "", error_text := "", rule_enabled := true }] :
          List RLog).map
          (fun l => if l.status = RStatus.pending ∧ l.due_at ≤ 100
            then (processLog
              (fun i => if i = 1 then SendResult.ok "mid-1" else SendResult.err "boom")
              100 l).1 else l) :=
  (send_due_reminders_processing 100
    (fun i => if i = 1 then SendResult.ok "mid-1" else SendResult.err "boom")
    [{ id := 1, status := .pending, due_at := 90, sent_at := none,
       provider_response_id := "", error_text := "", rule_enabled := true },
     { id := 2, status := .pending, due_at := 50, sent_at := none,
       provider_response_id := "", error_text := "", rule_enabled := false },
     { id := 3, status := .sent, due_at := 10, sent_at := some 5,
       provider_response_id := "x", error_text := "", rule_enabled := true },
     { id := 4, status := .pending, due_at := 200, sent_at := none,
       provider_response_id := "", error_text := "", rule_enabled := true }]
    (by decide) (by decide)).1

end Digmo
